import Mathlib

/-!
# Verification of the paras-nft-contract series / fee / payout / raffle engine

Shallow embedding of src/paras-nft-contract/src/lib.rs.  Machine integers
(u16/u32/u64/u128) are modelled as Nat; the contract is compiled with overflow
checks, so a Rust overflow panics and aborts the call — places where a
subtraction could underflow are modelled explicitly as errors.  Fallible entry
points (Rust asserts / panics / expects) return Except String.  NEAR collection
types (UnorderedMap, LookupMap, UnorderedSet) are modelled as association lists
and lists; removal is modelled as filtering out the key, which agrees with the
map semantics because the real maps hold each key at most once.  Storage-cost
accounting (refund_deposit) and the Promise transport are environment
collaborators and are represented by the transfer amounts an operation emits.
Token identifiers "seriesId:edition" (TOKEN_DELIMETER ':') are modelled as a
pair of the series id and the edition number, which the delimiter makes
recoverable from the string.
-/

namespace ParasNft

abbrev AccountId := String
abbrev TokenSeriesId := String
abbrev TimestampSec := Nat

/-- u64::MAX, the default copies cap when metadata.copies is None. -/
def U64_MAX : Nat := 2 ^ 64 - 1

/-- MAX_PRICE = 1_000_000_000 * 10^24. -/
def MAX_PRICE : Nat := 1000000000 * 10 ^ 24

/-- A token id "seriesId:edition" (series and edition separated by
TOKEN_DELIMETER), modelled structurally. -/
structure TokenId where
  series : TokenSeriesId
  edition : Nat
deriving DecidableEq, Repr

/-- TokenMetadata from near-contract-standards (string payload fields kept). -/
structure TokenMetadata where
  title : Option String := none
  description : Option String := none
  media : Option String := none
  media_hash : Option String := none
  copies : Option Nat := none
  issued_at : Option String := none
  expires_at : Option String := none
  starts_at : Option String := none
  updated_at : Option String := none
  extra : Option String := none
  reference : Option String := none
  reference_hash : Option String := none
deriving DecidableEq, Repr

structure TokenSeries where
  metadata : TokenMetadata
  creator_id : AccountId
  tokens : List TokenId
  price : Option Nat
  is_mintable : Bool
  royalty : List (AccountId × Nat)
deriving DecidableEq, Repr

structure TokenSeriesJson where
  token_series_id : TokenSeriesId
  metadata : TokenMetadata
  creator_id : AccountId
  royalty : List (AccountId × Nat)
  transaction_fee : Option Nat
deriving DecidableEq, Repr

structure TransactionFee where
  next_fee : Option Nat
  start_time : Option TimestampSec
  current_fee : Nat
deriving DecidableEq, Repr

/-- The contract state (fields relevant to the custom logic; the NonFungibleToken
sub-structure is flattened into its owner_by_id / token_metadata_by_id /
approvals_by_id / next_approval_id_by_id / tokens_per_owner components). -/
structure Contract where
  owner_id : AccountId
  owner_by_id : List (TokenId × AccountId)
  token_metadata_by_id : List (TokenId × TokenMetadata)
  approvals_by_id : List (TokenId × List (AccountId × Nat))
  next_approval_id_by_id : List (TokenId × Nat)
  tokens_per_owner : List (AccountId × List TokenId)
  token_series_by_id : List (TokenSeriesId × TokenSeries)
  seller_by_id : List (AccountId × Nat)
  raffle : List Nat
  token_series_id_minted : Nat
  treasury_id : AccountId
  transaction_fee : TransactionFee
  account_id_og : List (AccountId × Nat)
  balance_mint_og : Nat
  market_data_transaction_fee : List (TokenSeriesId × Nat)
deriving DecidableEq, Repr

/-! ## Association-list primitives (model of UnorderedMap / LookupMap) -/

def alGet {κ α : Type} [DecidableEq κ] (l : List (κ × α)) (k : κ) : Option α :=
  match l with
  | [] => none
  | (k1, v) :: t => if k = k1 then some v else alGet t k

def alInsert {κ α : Type} [DecidableEq κ] (l : List (κ × α)) (k : κ) (v : α) :
    List (κ × α) :=
  match l with
  | [] => [(k, v)]
  | (k1, v1) :: t => if k = k1 then (k, v) :: t else (k1, v1) :: alInsert t k v

def alRemove {κ α : Type} [DecidableEq κ] (l : List (κ × α)) (k : κ) :
    List (κ × α) :=
  l.filter (fun kv => kv.1 ≠ k)

def alContains {κ α : Type} [DecidableEq κ] (l : List (κ × α)) (k : κ) : Bool :=
  (alGet l k).isSome

@[simp] theorem alGet_nil {κ α : Type} [DecidableEq κ] (k : κ) :
    alGet ([] : List (κ × α)) k = none := rfl

@[simp] theorem alGet_cons {κ α : Type} [DecidableEq κ] (k1 : κ) (v : α)
    (t : List (κ × α)) (k : κ) :
    alGet ((k1, v) :: t) k = if k = k1 then some v else alGet t k := rfl

@[simp] theorem alGet_alInsert_self {κ α : Type} [DecidableEq κ]
    (l : List (κ × α)) (k : κ) (v : α) : alGet (alInsert l k v) k = some v := by
  induction l with
  | nil => simp [alInsert]
  | cons h t ih =>
    obtain ⟨k1, v1⟩ := h
    by_cases hk : k = k1 <;> simp [alInsert, hk, ih]

theorem alGet_alInsert_ne {κ α : Type} [DecidableEq κ]
    (l : List (κ × α)) (k k' : κ) (v : α) (h : k' ≠ k) :
    alGet (alInsert l k v) k' = alGet l k' := by
  induction l with
  | nil => simp [alInsert, h]
  | cons hd t ih =>
    obtain ⟨k1, v1⟩ := hd
    by_cases hk : k = k1
    · subst hk; simp [alInsert, h]
    · by_cases hk' : k' = k1 <;> simp [alInsert, hk, hk', ih]

theorem alGet_isSome_alInsert {κ α : Type} [DecidableEq κ]
    (l : List (κ × α)) (k k' : κ) (v : α) (h : (alGet l k').isSome) :
    (alGet (alInsert l k v) k').isSome := by
  by_cases hk : k' = k
  · subst hk; simp
  · rwa [alGet_alInsert_ne l k k' v hk]

theorem alGet_eq_none_of_not_mem_keys {κ α : Type} [DecidableEq κ]
    (l : List (κ × α)) (k : κ) (h : k ∉ l.map Prod.fst) : alGet l k = none := by
  induction l with
  | nil => rfl
  | cons hd t ih =>
    obtain ⟨k1, v1⟩ := hd
    simp only [List.map_cons, List.mem_cons] at h
    push_neg at h
    simp [alGet, h.1, ih h.2]

theorem mem_keys_of_alGet_isSome {κ α : Type} [DecidableEq κ]
    (l : List (κ × α)) (k : κ) (h : (alGet l k).isSome) : k ∈ l.map Prod.fst := by
  by_contra hmem
  rw [alGet_eq_none_of_not_mem_keys l k hmem] at h
  simp at h

theorem keys_alInsert_of_isSome {κ α : Type} [DecidableEq κ]
    (l : List (κ × α)) (k : κ) (v : α) (h : (alGet l k).isSome) :
    (alInsert l k v).map Prod.fst = l.map Prod.fst := by
  induction l with
  | nil => simp [alGet] at h
  | cons hd t ih =>
    obtain ⟨k1, v1⟩ := hd
    by_cases hk : k = k1
    · subst hk; simp [alInsert]
    · simp only [alGet_cons, if_neg hk] at h
      simp [alInsert, hk, ih h]

theorem keys_alInsert_of_isNone {κ α : Type} [DecidableEq κ]
    (l : List (κ × α)) (k : κ) (v : α) (h : alGet l k = none) :
    (alInsert l k v).map Prod.fst = l.map Prod.fst ++ [k] := by
  induction l with
  | nil => simp [alInsert]
  | cons hd t ih =>
    obtain ⟨k1, v1⟩ := hd
    by_cases hk : k = k1
    · subst hk; simp [alGet] at h
    · simp only [alGet_cons, if_neg hk] at h
      simp [alInsert, hk, ih h]

theorem alGet_isSome_of_mem_keys {κ α : Type} [DecidableEq κ]
    (l : List (κ × α)) (k : κ) (h : k ∈ l.map Prod.fst) : (alGet l k).isSome := by
  by_contra hc
  rw [Option.not_isSome_iff_eq_none] at hc
  induction l with
  | nil => simp at h
  | cons hd t ih =>
    obtain ⟨k1, v1⟩ := hd
    by_cases hk : k = k1
    · simp [alGet, hk] at hc
    · simp only [List.map_cons, List.mem_cons] at h
      simp only [alGet_cons, if_neg hk] at hc
      exact ih (h.resolve_left hk) hc

theorem nodup_keys_alInsert {κ α : Type} [DecidableEq κ]
    (l : List (κ × α)) (k : κ) (v : α) (h : (l.map Prod.fst).Nodup) :
    ((alInsert l k v).map Prod.fst).Nodup := by
  rcases hg : alGet l k with _ | w
  · rw [keys_alInsert_of_isNone l k v hg]
    refine List.Nodup.append h (List.nodup_singleton k) ?_
    intro x hx hx1
    simp only [List.mem_singleton] at hx1
    subst hx1
    have := alGet_isSome_of_mem_keys l x hx
    rw [hg] at this
    simp at this
  · rw [keys_alInsert_of_isSome l k v (by simp [hg])]
    exact h

theorem alGet_alInsert_eq_or {κ α : Type} [DecidableEq κ]
    (l : List (κ × α)) (k k' : κ) (v : α) :
    alGet (alInsert l k v) k' = some v ∧ k' = k ∨
      alGet (alInsert l k v) k' = alGet l k' ∧ k' ≠ k := by
  by_cases h : k' = k
  · subst h; exact Or.inl ⟨alGet_alInsert_self l k' v, rfl⟩
  · exact Or.inr ⟨alGet_alInsert_ne l k k' v h, h⟩

theorem alRemove_cons {κ α : Type} [DecidableEq κ]
    (k1 : κ) (v1 : α) (t : List (κ × α)) (k : κ) :
    alRemove ((k1, v1) :: t) k =
      if k1 = k then alRemove t k else (k1, v1) :: alRemove t k := by
  by_cases hk : k1 = k <;> simp [alRemove, List.filter_cons, hk]

@[simp] theorem alGet_alRemove_self {κ α : Type} [DecidableEq κ]
    (l : List (κ × α)) (k : κ) : alGet (alRemove l k) k = none := by
  induction l with
  | nil => rfl
  | cons hd t ih =>
    obtain ⟨k1, v1⟩ := hd
    rw [alRemove_cons]
    by_cases hk : k1 = k
    · rw [if_pos hk]; exact ih
    · rw [if_neg hk]; simpa [alGet, Ne.symm hk] using ih

theorem alGet_alRemove_ne {κ α : Type} [DecidableEq κ]
    (l : List (κ × α)) (k k' : κ) (h : k' ≠ k) :
    alGet (alRemove l k) k' = alGet l k' := by
  induction l with
  | nil => rfl
  | cons hd t ih =>
    obtain ⟨k1, v1⟩ := hd
    rw [alRemove_cons]
    by_cases hk : k1 = k
    · subst hk; rw [if_pos rfl]; simpa [alGet, h] using ih
    · rw [if_neg hk]
      by_cases hk' : k' = k1 <;> simp [alGet, hk', ih]

theorem alGet_append_left {κ α : Type} [DecidableEq κ]
    (l1 l2 : List (κ × α)) (k : κ) (v : α) (h : alGet l1 k = some v) :
    alGet (l1 ++ l2) k = some v := by
  induction l1 with
  | nil => simp [alGet] at h
  | cons hd t ih =>
    obtain ⟨k1, v1⟩ := hd
    by_cases hk : k = k1 <;> simp_all [alGet]

theorem alGet_append_right {κ α : Type} [DecidableEq κ]
    (l1 l2 : List (κ × α)) (k : κ) (h : alGet l1 k = none) :
    alGet (l1 ++ l2) k = alGet l2 k := by
  induction l1 with
  | nil => rfl
  | cons hd t ih =>
    obtain ⟨k1, v1⟩ := hd
    by_cases hk : k = k1 <;> simp_all [alGet]

/-! ## near_sdk helpers -/

/-- near_sdk to_sec: nanosecond block timestamp to seconds. -/
def to_sec (timestamp : Nat) : TimestampSec := timestamp / 10 ^ 9

/-- near_sdk env::is_valid_account_id character classification: lower-case
letters and digits are ordinary, separators are one of the three punctuation
characters, anything else is invalid. -/
def accountCharClass (c : Char) : Option Bool :=
  if (Char.ofNat 97 ≤ c ∧ c ≤ Char.ofNat 122) ∨
     (Char.ofNat 48 ≤ c ∧ c ≤ Char.ofNat 57) then some false
  else if c = Char.ofNat 45 ∨ c = Char.ofNat 95 ∨ c = Char.ofNat 46 then some true
  else none

def validAccountChars : List Char → Bool → Bool
  | [], last => !last
  | c :: t, last =>
    match accountCharClass c with
    | none => false
    | some sep => if sep && last then false else validAccountChars t sep

/-- near_sdk env::is_valid_account_id. -/
def is_valid_account_id (s : String) : Bool :=
  decide (2 ≤ s.length) && decide (s.length ≤ 64) && validAccountChars s.data true

/-! ## Fee scheduler (set_transaction_fee / calculate_current_transaction_fee) -/

/-- set_transaction_fee (lib.rs lines 236-264). -/
def set_transaction_fee (c : Contract) (predecessor : AccountId) (deposit : Nat)
    (block_timestamp : Nat) (next_fee : Nat) (start_time : Option TimestampSec) :
    Except String Contract :=
  if deposit ≠ 1 then .error "Requires attached deposit of exactly 1 yoctoNEAR"
  else if predecessor ≠ c.owner_id then .error "Paras: Owner only"
  else if ¬ next_fee < 10000 then .error "Paras: transaction fee is more than 10_000"
  else
    match start_time with
    | none =>
      .ok { c with transaction_fee :=
              { next_fee := none, start_time := none, current_fee := next_fee } }
    | some st =>
      if ¬ st > to_sec block_timestamp then
        .error "start_time is less than current block_timestamp"
      else
        .ok { c with transaction_fee :=
                { c.transaction_fee with
                    next_fee := some next_fee, start_time := some st } }

/-- calculate_current_transaction_fee (lib.rs lines 282-292).  The source
unwraps start_time when next_fee is set; the two are only ever set together, so
the unpaired case (next_fee set, start_time absent), on which the source would
panic, is left as the no-settle branch here. -/
def calculate_current_transaction_fee (c : Contract) (block_timestamp : Nat) :
    Nat × Contract :=
  match c.transaction_fee.next_fee, c.transaction_fee.start_time with
  | some nf, some st =>
    if to_sec block_timestamp ≥ st then
      let c2 := { c with transaction_fee :=
                    { next_fee := none, start_time := none, current_fee := nf } }
      (c2.transaction_fee.current_fee, c2)
    else (c.transaction_fee.current_fee, c)
  | _, _ => (c.transaction_fee.current_fee, c)

/-- calculate_market_data_transaction_fee (lib.rs lines 266-280): the
per-series snapshot when present, otherwise the settled current fee. -/
def calculate_market_data_transaction_fee (c : Contract)
    (token_series_id : TokenSeriesId) (block_timestamp : Nat) : Nat × Contract :=
  match alGet c.market_data_transaction_fee token_series_id with
  | some fee => (fee, c)
  | none => calculate_current_transaction_fee c block_timestamp

/-- get_market_data_transaction_fee (view, lib.rs lines 298-308). -/
def get_market_data_transaction_fee (c : Contract)
    (token_series_id : TokenSeriesId) : Nat :=
  match alGet c.market_data_transaction_fee token_series_id with
  | some fee => fee
  | none => c.transaction_fee.current_fee

/-! ## OG allowlist (lib.rs lines 314-389) -/

def set_balance_mint_og (c : Contract) (predecessor : AccountId) (deposit : Nat)
    (balance_mint_og : Nat) : Except String Contract :=
  if deposit ≠ 1 then .error "Requires attached deposit of exactly 1 yoctoNEAR"
  else if predecessor ≠ c.owner_id then .error "Paras: Owner only"
  else .ok { c with balance_mint_og := balance_mint_og }

def add_og_account_id (c : Contract) (predecessor : AccountId) (deposit : Nat)
    (account_id : AccountId) (balance_mint_og : Option Nat) :
    Except String Contract :=
  if deposit ≠ 1 then .error "Requires attached deposit of exactly 1 yoctoNEAR"
  else if predecessor ≠ c.owner_id then .error "Paras: Owner only"
  else
    let balance := balance_mint_og.getD c.balance_mint_og
    .ok { c with account_id_og := alInsert c.account_id_og account_id balance }

/-- decress_balance_og (lib.rs lines 375-378): public, payable, and performs no
predecessor or deposit check at all; stores balance_mint_og - 1 (the u32
subtraction panics when the argument is 0). -/
def decress_balance_og (c : Contract) (predecessor : AccountId) (deposit : Nat)
    (account_id : AccountId) (balance_mint_og : Nat) : Except String Contract :=
  if balance_mint_og = 0 then .error "attempt to subtract with overflow"
  else .ok { c with
               account_id_og := alInsert c.account_id_og account_id (balance_mint_og - 1) }

def remove_og_account_id (c : Contract) (predecessor : AccountId) (deposit : Nat)
    (account_id : AccountId) : Except String Contract :=
  if deposit ≠ 1 then .error "Requires attached deposit of exactly 1 yoctoNEAR"
  else if predecessor ≠ c.owner_id then .error "Paras: Owner only"
  else .ok { c with account_id_og := alRemove c.account_id_og account_id }

def set_treasury (c : Contract) (predecessor : AccountId) (deposit : Nat)
    (treasury_id : AccountId) : Except String Contract :=
  if deposit ≠ 1 then .error "Requires attached deposit of exactly 1 yoctoNEAR"
  else if predecessor ≠ c.owner_id then .error "Paras: Owner only"
  else .ok { c with treasury_id := treasury_id }

/-! ## Series registry -/

/-- The creator_id argument check of the creation paths: when an explicit
creator is supplied it must equal the caller. -/
def creatorMismatch (creator_id : Option AccountId) (caller : AccountId) : Bool :=
  match creator_id with
  | none => false
  | some cid => cid ≠ caller

/-- Sum of the basis points of a royalty map (the total_perpetual loop). -/
def royaltyTotal (royalty : List (AccountId × Nat)) : Nat :=
  royalty.foldl (fun acc kv => acc + kv.2) 0

/-- The price check of the creation / set_price paths. -/
def priceTooHigh (price : Option Nat) : Bool :=
  match price with
  | none => false
  | some p => decide (¬ p < MAX_PRICE)

/-- Shared body of the two series-creation entry points after the identifier
has been fixed: the validation sequence and the insertion, mirroring
lib.rs lines 433-517 (identical text at lines 547-631). -/
def createSeriesChecked (c : Contract) (caller_id : AccountId)
    (block_timestamp : Nat) (token_series_id : TokenSeriesId)
    (creator_id : Option AccountId) (token_metadata : TokenMetadata)
    (price : Option Nat) (royalty : Option (List (AccountId × Nat))) :
    Except String (Contract × TokenSeriesJson) :=
  if caller_id ≠ c.owner_id then .error "Paras: Only owner"
  else if creatorMismatch creator_id caller_id then
    .error "Paras: Caller is not creator_id"
  else if (alGet c.token_series_by_id token_series_id).isSome then
    .error "Paras: duplicate token_series_id"
  else if token_metadata.title.isNone then
    .error "Paras: token_metadata.title is required"
  else
    let royalty_res := royalty.getD []
    if ¬ royalty_res.all (fun kv => is_valid_account_id kv.1) then
      .error "Not valid account_id for royalty"
    else if ¬ royalty_res.length ≤ 10 then
      .error "Paras: royalty exceeds 10 accounts"
    else if ¬ royaltyTotal royalty_res ≤ 9000 then
      .error "Paras Exceeds maximum royalty, 9000"
    else if priceTooHigh price then
      .error "Paras: price higher than MAX_PRICE"
    else
      let ts : TokenSeries :=
        { metadata := token_metadata
          creator_id := caller_id
          tokens := []
          price := price
          is_mintable := true
          royalty := royalty_res }
      let c2 := { c with token_series_by_id :=
                    alInsert c.token_series_by_id token_series_id ts }
      let res := calculate_current_transaction_fee c2 block_timestamp
      let fee := res.1
      let cset := res.2
      let c3 := { cset with market_data_transaction_fee :=
                    alInsert cset.market_data_transaction_fee token_series_id fee }
      .ok (c3,
        { token_series_id := token_series_id
          metadata := token_metadata
          creator_id := caller_id
          royalty := royalty_res
          transaction_fee := some fee })

/-- nft_create_series (lib.rs lines 405-518): the identifier is derived from
the registry size plus one. -/
def nft_create_series (c : Contract) (predecessor : AccountId)
    (block_timestamp : Nat) (creator_id : Option AccountId)
    (token_metadata : TokenMetadata) (price : Option Nat)
    (royalty : Option (List (AccountId × Nat))) :
    Except String (Contract × TokenSeriesJson) :=
  createSeriesChecked c predecessor block_timestamp
    (toString (c.token_series_by_id.length + 1)) creator_id token_metadata
    price royalty

/-- nft_create_series_custom (lib.rs lines 520-632): the identifier is
supplied explicitly. -/
def nft_create_series_custom (c : Contract) (token_series_id : TokenSeriesId)
    (predecessor : AccountId) (block_timestamp : Nat)
    (creator_id : Option AccountId) (token_metadata : TokenMetadata)
    (price : Option Nat) (royalty : Option (List (AccountId × Nat))) :
    Except String (Contract × TokenSeriesJson) :=
  createSeriesChecked c predecessor block_timestamp token_series_id creator_id
    token_metadata price royalty

/-- _nft_mint_series (lib.rs lines 838-908). -/
def _nft_mint_series (c : Contract) (block_timestamp : Nat)
    (token_series_id : TokenSeriesId) (receiver_id : AccountId) :
    Except String (Contract × TokenId) :=
  match alGet c.token_series_by_id token_series_id with
  | none => .error "Paras: Token series not exist"
  | some token_series =>
    if ¬ token_series.is_mintable then .error "Paras: Token series is not mintable"
    else
      let num_tokens := token_series.tokens.length
      let max_copies := token_series.metadata.copies.getD U64_MAX
      if ¬ num_tokens < max_copies then .error "Series supply maxed"
      else
        let token_series2 :=
          if num_tokens + 1 ≥ max_copies then
            { token_series with is_mintable := false }
          else token_series
        let token_id : TokenId := { series := token_series_id, edition := num_tokens + 1 }
        let token_series3 :=
          { token_series2 with tokens :=
              if token_id ∈ token_series2.tokens then token_series2.tokens
              else token_series2.tokens ++ [token_id] }
        let c2 := { c with token_series_by_id :=
                      alInsert c.token_series_by_id token_series_id token_series3 }
        let metadata : TokenMetadata :=
          { issued_at := some (toString block_timestamp) }
        let c3 := { c2 with
                      owner_by_id := alInsert c2.owner_by_id token_id receiver_id
                      token_metadata_by_id :=
                        alInsert c2.token_metadata_by_id token_id metadata }
        let owner_tokens := (alGet c3.tokens_per_owner receiver_id).getD []
        let owner_tokens2 :=
          if token_id ∈ owner_tokens then owner_tokens
          else owner_tokens ++ [token_id]
        let c4 := { c3 with tokens_per_owner :=
                      alInsert c3.tokens_per_owner receiver_id owner_tokens2 }
        .ok ({ c4 with token_series_id_minted := c4.token_series_id_minted + 1 },
             token_id)

/-- The money movements an operation emits via Promise transfers. -/
structure BuyResult where
  state : Contract
  token_id : TokenId
  creator_transfer : AccountId × Nat
  treasury_transfer : Option (AccountId × Nat)
deriving DecidableEq, Repr

/-- nft_buy (lib.rs lines 634-675). -/
def nft_buy (c : Contract) (predecessor : AccountId) (attached_deposit : Nat)
    (block_timestamp : Nat) (token_series_id : TokenSeriesId)
    (receiver_id : AccountId) : Except String BuyResult :=
  match alGet c.token_series_by_id token_series_id with
  | none => .error "Paras: Token series not exist"
  | some token_series =>
    match token_series.price with
    | none => .error "Paras: not for sale"
    | some price =>
      if ¬ attached_deposit ≥ price then
        .error "Paras: attached deposit is less than price"
      else
        match _nft_mint_series c block_timestamp token_series_id receiver_id with
        | .error e => .error e
        | .ok (c2, token_id) =>
          let res := calculate_market_data_transaction_fee c2 token_series_id
            block_timestamp
          let for_treasury := price * res.1 / 10000
          let price_deducted := price - for_treasury
          .ok { state := res.2
                token_id := token_id
                creator_transfer := (token_series.creator_id, price_deducted)
                treasury_transfer :=
                  if for_treasury ≠ 0 then some (res.2.treasury_id, for_treasury)
                  else none }

/-- nft_mint_creator (lib.rs lines 677-701). -/
def nft_mint_creator (c : Contract) (predecessor : AccountId)
    (block_timestamp : Nat) (token_series_id : TokenSeriesId)
    (receiver_id : AccountId) : Except String (Contract × TokenId) :=
  match alGet c.token_series_by_id token_series_id with
  | none => .error "Paras: Token series not exist"
  | some token_series =>
    if predecessor ≠ token_series.creator_id then .error "Paras: not creator"
    else _nft_mint_series c block_timestamp token_series_id receiver_id

/-- nft_mint, the OG mint path (lib.rs lines 731-764). -/
def nft_mint (c : Contract) (predecessor : AccountId) (block_timestamp : Nat)
    (token_series_id : TokenSeriesId) (receiver_id : AccountId) :
    Except String (Contract × TokenId) :=
  if ¬ alContains c.account_id_og predecessor then .error "Not in OG list"
  else
    let balance_og := (alGet c.account_id_og predecessor).getD 0
    if balance_og ≤ 0 then .error "Not enough balance in OG"
    else if (alGet c.token_series_by_id token_series_id).isNone then
      .error "Paras: Token series not exist"
    else
      match _nft_mint_series c block_timestamp token_series_id receiver_id with
      | .error e => .error e
      | .ok (c2, token_id) =>
        match decress_balance_og c2 predecessor 0 predecessor balance_og with
        | .error e => .error e
        | .ok c3 => .ok (c3, token_id)

/-! ## Draw sampler -/

/-- Modelled from the spec: the Raffle type lives in src/paras-nft-contract/
src/raffle.rs, which is not present under src/ (only its caller draw_and_mint
is).  Spec 4.4: the pool starts as the N indices [0, N); a draw requires a
non-empty pool, uses the environment seed to choose uniformly among the
remaining slots without revisiting an index (swap-to-tail, i.e. removal of the
chosen position), shrinks the pool, and fails once exhausted. -/
def raffle_draw (pool : List Nat) (seed : Nat) : Except String (Nat × List Nat) :=
  if pool.length = 0 then .error "no raffle left"
  else
    let i := seed % pool.length
    .ok (pool.getD i 0, pool.eraseIdx i)

/-- Modelled from the spec: Raffle::new fills the pool with the N indices
[0, N) (spec 3, Draw Pool; spec 4.4). -/
def raffle_new (max_supply : Nat) : List Nat :=
  List.range max_supply

/-- draw_and_mint (lib.rs lines 703-729): the drawn 0-based index is
translated to a 1-based series identifier. -/
def draw_and_mint (c : Contract) (predecessor : AccountId) (block_timestamp : Nat)
    (seed : Nat) (receiver_id : AccountId) : Except String (Contract × TokenId) :=
  match raffle_draw c.raffle seed with
  | .error e => .error e
  | .ok (idx, pool2) =>
    let token_series_id := toString (idx + 1)
    let c2 := { c with raffle := pool2 }
    if (alGet c2.token_series_by_id token_series_id).isNone then
      .error "Paras: Token series not exist"
    else _nft_mint_series c2 block_timestamp token_series_id receiver_id

/-! ## Remaining series mutators -/

/-- nft_mint_and_approve (lib.rs lines 766-836), state effects only (the
optional nft_on_approve cross-contract call is external). -/
def nft_mint_and_approve (c : Contract) (predecessor : AccountId)
    (block_timestamp : Nat) (token_series_id : TokenSeriesId)
    (account_id : AccountId) : Except String (Contract × TokenId) :=
  match alGet c.token_series_by_id token_series_id with
  | none => .error "Paras: Token series not exist"
  | some token_series =>
    if predecessor ≠ token_series.creator_id then .error "Paras: not creator"
    else
      match _nft_mint_series c block_timestamp token_series_id
        token_series.creator_id with
      | .error e => .error e
      | .ok (c2, token_id) =>
        let approved_account_ids := (alGet c2.approvals_by_id token_id).getD []
        let approval_id := (alGet c2.next_approval_id_by_id token_id).getD 1
        let approved2 := alInsert approved_account_ids account_id approval_id
        let c3 := { c2 with
                      approvals_by_id := alInsert c2.approvals_by_id token_id approved2
                      next_approval_id_by_id :=
                        alInsert c2.next_approval_id_by_id token_id (approval_id + 1) }
        .ok (c3, token_id)

/-- nft_set_series_non_mintable (lib.rs lines 910-947). -/
def nft_set_series_non_mintable (c : Contract) (predecessor : AccountId)
    (deposit : Nat) (token_series_id : TokenSeriesId) : Except String Contract :=
  if deposit ≠ 1 then .error "Requires attached deposit of exactly 1 yoctoNEAR"
  else
    match alGet c.token_series_by_id token_series_id with
    | none => .error "Token series not exist"
    | some token_series =>
      if predecessor ≠ token_series.creator_id then .error "Paras: Creator only"
      else if token_series.is_mintable ≠ true then .error "Paras: already non-mintable"
      else if token_series.metadata.copies ≠ none then
        .error "Paras: decrease supply if copies not null"
      else
        let token_series2 := { token_series with is_mintable := false }
        .ok { c with token_series_by_id :=
                alInsert c.token_series_by_id token_series_id token_series2 }

/-- nft_decrease_series_copies (lib.rs lines 949-1000).  The u64 subtraction
copies - decrease_copies panics on underflow. -/
def nft_decrease_series_copies (c : Contract) (predecessor : AccountId)
    (deposit : Nat) (token_series_id : TokenSeriesId) (decrease_copies : Nat) :
    Except String (Contract × Nat) :=
  if deposit ≠ 1 then .error "Requires attached deposit of exactly 1 yoctoNEAR"
  else
    match alGet c.token_series_by_id token_series_id with
    | none => .error "Token series not exist"
    | some token_series =>
      if predecessor ≠ token_series.creator_id then .error "Paras: Creator only"
      else
        let minted_copies := token_series.tokens.length
        match token_series.metadata.copies with
        | none => .error "called Option unwrap on a None value"
        | some copies =>
          if copies < decrease_copies then .error "attempt to subtract with overflow"
          else if ¬ (copies - decrease_copies) ≥ minted_copies then
            .error "Paras: cannot decrease supply, already minted"
          else
            let token_series2 :=
              if (copies - decrease_copies) = minted_copies then
                { token_series with is_mintable := false }
              else token_series
            let token_series3 :=
              { token_series2 with metadata :=
                  { token_series2.metadata with copies := some (copies - decrease_copies) } }
            .ok ({ c with token_series_by_id :=
                     alInsert c.token_series_by_id token_series_id token_series3 },
                 copies - decrease_copies)

/-- nft_set_series_price (lib.rs lines 1002-1058). -/
def nft_set_series_price (c : Contract) (predecessor : AccountId) (deposit : Nat)
    (block_timestamp : Nat) (token_series_id : TokenSeriesId)
    (price : Option Nat) : Except String (Contract × Option Nat) :=
  if deposit ≠ 1 then .error "Requires attached deposit of exactly 1 yoctoNEAR"
  else
    match alGet c.token_series_by_id token_series_id with
    | none => .error "Token series not exist"
    | some token_series =>
      if predecessor ≠ token_series.creator_id then .error "Paras: Creator only"
      else if token_series.is_mintable ≠ true then
        .error "Paras: token series is not mintable"
      else if priceTooHigh price then .error "Paras: price higher than MAX_PRICE"
      else
        let token_series2 := { token_series with price := price }
        let c2 := { c with token_series_by_id :=
                      alInsert c.token_series_by_id token_series_id token_series2 }
        let res := calculate_current_transaction_fee c2 block_timestamp
        let fee := res.1
        let cset := res.2
        .ok ({ cset with market_data_transaction_fee :=
                 alInsert cset.market_data_transaction_fee token_series_id fee },
             price)

/-- nft_burn (lib.rs lines 1060-1088): removes approval state, the owner-index
entry, the token metadata and the ownership record; the series record
(including its tokens set) is not touched. -/
def nft_burn (c : Contract) (predecessor : AccountId) (deposit : Nat)
    (token_id : TokenId) : Except String Contract :=
  if deposit ≠ 1 then .error "Requires attached deposit of exactly 1 yoctoNEAR"
  else
    match alGet c.owner_by_id token_id with
    | none => .error "called Option unwrap on a None value"
    | some owner_id =>
      if owner_id ≠ predecessor then .error "Token owner only"
      else
        let c2 := { c with
                      next_approval_id_by_id := alRemove c.next_approval_id_by_id token_id
                      approvals_by_id := alRemove c.approvals_by_id token_id }
        match alGet c2.tokens_per_owner owner_id with
        | none => .error "called Option unwrap on a None value"
        | some token_ids =>
          let c3 := { c2 with tokens_per_owner :=
                        alInsert c2.tokens_per_owner owner_id (token_ids.erase token_id) }
          let c4 := { c3 with token_metadata_by_id :=
                        alRemove c3.token_metadata_by_id token_id }
          .ok { c4 with owner_by_id := alRemove c4.owner_by_id token_id }

/-! ## Royalty payout -/

/-- royalty_to_payout (lib.rs lines 1560-1562). -/
def royalty_to_payout (a : Nat) (b : Nat) : Nat :=
  a * b / 10000

/-- nft_payout (lib.rs lines 1432-1468): the payout preview for a sale of
balance, bounded by max_len_payout payees counted on the royalty map. -/
def nft_payout (c : Contract) (token_id : TokenId) (balance : Nat)
    (max_len_payout : Nat) : Except String (List (AccountId × Nat)) :=
  match alGet c.owner_by_id token_id with
  | none => .error "No token id"
  | some owner_id =>
    match alGet c.token_series_by_id token_id.series with
    | none => .error "no type"
    | some token_series =>
      if ¬ token_series.royalty.length ≤ max_len_payout then
        .error "Market cannot payout to that many receivers"
      else
        let res := token_series.royalty.foldl
          (fun acc kv =>
            if kv.1 ≠ owner_id then
              (alInsert acc.1 kv.1 (royalty_to_payout kv.2 balance), acc.2 + kv.2)
            else acc)
          ([], 0)
        .ok (alInsert res.1 owner_id (royalty_to_payout (10000 - res.2) balance))

/-- The payout branch of nft_transfer_payout (lib.rs lines 1487-1527),
isolated from the (external) ownership transfer it accompanies: with no
balance the payout is None and nothing is checked; with a balance the royalty
length is checked against max_len_payout (whose absence panics the unwrap). -/
def nft_transfer_payout_calc (royalty : List (AccountId × Nat))
    (previous_owner_id : AccountId) (balance : Option Nat)
    (max_len_payout : Option Nat) :
    Except String (Option (List (AccountId × Nat))) :=
  match balance with
  | none => .ok none
  | some balance_u128 =>
    match max_len_payout with
    | none => .error "called Option unwrap on a None value"
    | some max_len =>
      if ¬ royalty.length ≤ max_len then
        .error "Market cannot payout to that many receivers"
      else
        let res := royalty.foldl
          (fun acc kv =>
            if kv.1 ≠ previous_owner_id then
              (alInsert acc.1 kv.1 (royalty_to_payout kv.2 balance_u128), acc.2 + kv.2)
            else acc)
          ([], 0)
        if ¬ res.2 ≤ 10000 then .error "Total payout overflow"
        else
          .ok (some (alInsert res.1 previous_owner_id
                 (royalty_to_payout (10000 - res.2) balance_u128)))

/-- Contract::new (lib.rs lines 197-234). -/
def Contract.new (owner_id : AccountId) (treasury_id : AccountId)
    (max_supply_raffle : Nat) (whitelist_contract_id : AccountId)
    (current_fee : Nat) : Contract :=
  { owner_id := owner_id
    owner_by_id := []
    token_metadata_by_id := []
    approvals_by_id := []
    next_approval_id_by_id := []
    tokens_per_owner := []
    token_series_by_id := []
    seller_by_id := []
    raffle := raffle_new max_supply_raffle
    token_series_id_minted := 0
    treasury_id := treasury_id
    transaction_fee := { next_fee := none, start_time := none, current_fee := current_fee }
    account_id_og := []
    balance_mint_og := 0
    market_data_transaction_fee := [] }

/-! ## Operation traces

One constructor per state-mutating entry point, carrying the environment data
(caller, attached deposit, block timestamp, random seed) the entry point reads.
The standard NFT transfer / approval / resolution methods are code of
near-contract-standards (an external collaborator per the spec); the
externalLedger constructor over-approximates them: it may replace the ledger
fields (ownership, metadata, approvals, owner index, seller counters)
arbitrarily, but touches neither the series registry, the raffle pool, the fee
state nor the OG table — which is all those methods can reach. -/

inductive Op where
  | setTransactionFee (predecessor : AccountId) (deposit : Nat)
      (block_timestamp : Nat) (next_fee : Nat) (start_time : Option TimestampSec)
  | setTreasury (predecessor : AccountId) (deposit : Nat) (treasury : AccountId)
  | setBalanceMintOg (predecessor : AccountId) (deposit : Nat) (balance : Nat)
  | addOgAccountId (predecessor : AccountId) (deposit : Nat)
      (account : AccountId) (balance : Option Nat)
  | decressBalanceOg (predecessor : AccountId) (deposit : Nat)
      (account : AccountId) (balance : Nat)
  | removeOgAccountId (predecessor : AccountId) (deposit : Nat) (account : AccountId)
  | createSeries (predecessor : AccountId) (block_timestamp : Nat)
      (creator : Option AccountId) (metadata : TokenMetadata)
      (price : Option Nat) (royalty : Option (List (AccountId × Nat)))
  | createSeriesCustom (token_series_id : TokenSeriesId) (predecessor : AccountId)
      (block_timestamp : Nat) (creator : Option AccountId)
      (metadata : TokenMetadata) (price : Option Nat)
      (royalty : Option (List (AccountId × Nat)))
  | buy (predecessor : AccountId) (deposit : Nat) (block_timestamp : Nat)
      (token_series_id : TokenSeriesId) (receiver : AccountId)
  | mintCreator (predecessor : AccountId) (block_timestamp : Nat)
      (token_series_id : TokenSeriesId) (receiver : AccountId)
  | ogMint (predecessor : AccountId) (block_timestamp : Nat)
      (token_series_id : TokenSeriesId) (receiver : AccountId)
  | drawAndMint (predecessor : AccountId) (block_timestamp : Nat) (seed : Nat)
      (receiver : AccountId)
  | mintAndApprove (predecessor : AccountId) (block_timestamp : Nat)
      (token_series_id : TokenSeriesId) (account : AccountId)
  | setSeriesNonMintable (predecessor : AccountId) (deposit : Nat)
      (token_series_id : TokenSeriesId)
  | decreaseSeriesCopies (predecessor : AccountId) (deposit : Nat)
      (token_series_id : TokenSeriesId) (decrease : Nat)
  | setSeriesPrice (predecessor : AccountId) (deposit : Nat)
      (block_timestamp : Nat) (token_series_id : TokenSeriesId)
      (price : Option Nat)
  | burn (predecessor : AccountId) (deposit : Nat) (token_id : TokenId)
  | externalLedger (owner_by_id : List (TokenId × AccountId))
      (token_metadata_by_id : List (TokenId × TokenMetadata))
      (approvals_by_id : List (TokenId × List (AccountId × Nat)))
      (next_approval_id_by_id : List (TokenId × Nat))
      (tokens_per_owner : List (AccountId × List TokenId))
      (seller_by_id : List (AccountId × Nat))

/-- Apply one operation.  A failed call panics and reverts atomically, leaving
the state unchanged (spec 7: all-or-nothing per call).  The second component
records the identifier a successful series creation returned. -/
def applyOp (c : Contract) (op : Op) : Contract × List TokenSeriesId :=
  match op with
  | .setTransactionFee p d bt nf st =>
    ((set_transaction_fee c p d bt nf st).toOption.getD c, [])
  | .setTreasury p d t => ((set_treasury c p d t).toOption.getD c, [])
  | .setBalanceMintOg p d b => ((set_balance_mint_og c p d b).toOption.getD c, [])
  | .addOgAccountId p d a b => ((add_og_account_id c p d a b).toOption.getD c, [])
  | .decressBalanceOg p d a b => ((decress_balance_og c p d a b).toOption.getD c, [])
  | .removeOgAccountId p d a => ((remove_og_account_id c p d a).toOption.getD c, [])
  | .createSeries p bt cr md pr roy =>
    match nft_create_series c p bt cr md pr roy with
    | .ok (c2, js) => (c2, [js.token_series_id])
    | .error _ => (c, [])
  | .createSeriesCustom sid p bt cr md pr roy =>
    match nft_create_series_custom c sid p bt cr md pr roy with
    | .ok (c2, js) => (c2, [js.token_series_id])
    | .error _ => (c, [])
  | .buy p d bt sid r =>
    match nft_buy c p d bt sid r with
    | .ok res => (res.state, [])
    | .error _ => (c, [])
  | .mintCreator p bt sid r =>
    match nft_mint_creator c p bt sid r with
    | .ok res => (res.1, [])
    | .error _ => (c, [])
  | .ogMint p bt sid r =>
    match nft_mint c p bt sid r with
    | .ok res => (res.1, [])
    | .error _ => (c, [])
  | .drawAndMint p bt seed r =>
    match draw_and_mint c p bt seed r with
    | .ok res => (res.1, [])
    | .error _ => (c, [])
  | .mintAndApprove p bt sid a =>
    match nft_mint_and_approve c p bt sid a with
    | .ok res => (res.1, [])
    | .error _ => (c, [])
  | .setSeriesNonMintable p d sid =>
    ((nft_set_series_non_mintable c p d sid).toOption.getD c, [])
  | .decreaseSeriesCopies p d sid dec =>
    match nft_decrease_series_copies c p d sid dec with
    | .ok res => (res.1, [])
    | .error _ => (c, [])
  | .setSeriesPrice p d bt sid pr =>
    match nft_set_series_price c p d bt sid pr with
    | .ok res => (res.1, [])
    | .error _ => (c, [])
  | .burn p d tid => ((nft_burn c p d tid).toOption.getD c, [])
  | .externalLedger ob md ap na tpo sb =>
    ({ c with owner_by_id := ob, token_metadata_by_id := md,
              approvals_by_id := ap, next_approval_id_by_id := na,
              tokens_per_owner := tpo, seller_by_id := sb }, [])

/-- Run a sequence of operations, collecting every series identifier the
successful creation calls returned. -/
def runTrace (c : Contract) (ops : List Op) : Contract × List TokenSeriesId :=
  match ops with
  | [] => (c, [])
  | op :: rest =>
    let r := applyOp c op
    let r2 := runTrace r.1 rest
    (r2.1, r.2 ++ r2.2)

/-! ## Characterization of _nft_mint_series -/

/-- The series record after a successful mint: possibly flipped non-mintable,
with the fresh token id appended. -/
def mintedSeries (sid : TokenSeriesId) (ts : TokenSeries) : TokenSeries :=
  let num := ts.tokens.length
  let maxc := ts.metadata.copies.getD U64_MAX
  let ts2 := if num + 1 ≥ maxc then { ts with is_mintable := false } else ts
  let tid : TokenId := { series := sid, edition := num + 1 }
  { ts2 with tokens :=
      if tid ∈ ts2.tokens then ts2.tokens else ts2.tokens ++ [tid] }

/-- The whole contract state after a successful mint of series sid (whose
record is ts) to receiver r. -/
def mintState (c : Contract) (bt : Nat) (sid : TokenSeriesId) (r : AccountId)
    (ts : TokenSeries) : Contract :=
  let num := ts.tokens.length
  let tid : TokenId := { series := sid, edition := num + 1 }
  let c2 := { c with token_series_by_id :=
                alInsert c.token_series_by_id sid (mintedSeries sid ts) }
  let metadata : TokenMetadata := { issued_at := some (toString bt) }
  let c3 := { c2 with
                owner_by_id := alInsert c2.owner_by_id tid r
                token_metadata_by_id := alInsert c2.token_metadata_by_id tid metadata }
  let owner_tokens := (alGet c3.tokens_per_owner r).getD []
  let owner_tokens2 :=
    if tid ∈ owner_tokens then owner_tokens else owner_tokens ++ [tid]
  let c4 := { c3 with tokens_per_owner := alInsert c3.tokens_per_owner r owner_tokens2 }
  { c4 with token_series_id_minted := c4.token_series_id_minted + 1 }

theorem mint_ok (c : Contract) (bt : Nat) (sid : TokenSeriesId) (r : AccountId)
    (ts : TokenSeries) (hs : alGet c.token_series_by_id sid = some ts)
    (hm : ts.is_mintable = true)
    (hcap : ts.tokens.length < ts.metadata.copies.getD U64_MAX) :
    _nft_mint_series c bt sid r =
      .ok (mintState c bt sid r ts,
           { series := sid, edition := ts.tokens.length + 1 }) := by
  simp only [_nft_mint_series, hs]
  rw [if_neg (by simp [hm])]
  rw [if_neg (by simpa using hcap)]
  rfl

theorem mint_err_not_exist (c : Contract) (bt : Nat) (sid : TokenSeriesId)
    (r : AccountId) (h : alGet c.token_series_by_id sid = none) :
    _nft_mint_series c bt sid r = .error "Paras: Token series not exist" := by
  unfold _nft_mint_series
  rw [h]

theorem mint_err_not_mintable (c : Contract) (bt : Nat) (sid : TokenSeriesId)
    (r : AccountId) (ts : TokenSeries)
    (hs : alGet c.token_series_by_id sid = some ts)
    (hm : ts.is_mintable = false) :
    _nft_mint_series c bt sid r = .error "Paras: Token series is not mintable" := by
  unfold _nft_mint_series
  rw [hs]
  simp [hm]

theorem mint_err_maxed (c : Contract) (bt : Nat) (sid : TokenSeriesId)
    (r : AccountId) (ts : TokenSeries)
    (hs : alGet c.token_series_by_id sid = some ts)
    (hm : ts.is_mintable = true)
    (hcap : ts.metadata.copies.getD U64_MAX ≤ ts.tokens.length) :
    _nft_mint_series c bt sid r = .error "Series supply maxed" := by
  unfold _nft_mint_series
  rw [hs]
  simp [hm, hcap, Nat.not_lt.mpr hcap]

theorem mint_inv (c : Contract) (bt : Nat) (sid : TokenSeriesId) (r : AccountId)
    (c2 : Contract) (tid : TokenId)
    (h : _nft_mint_series c bt sid r = .ok (c2, tid)) :
    ∃ ts, alGet c.token_series_by_id sid = some ts ∧
      ts.is_mintable = true ∧
      ts.tokens.length < ts.metadata.copies.getD U64_MAX ∧
      c2 = mintState c bt sid r ts ∧
      tid = { series := sid, edition := ts.tokens.length + 1 } := by
  rcases hs : alGet c.token_series_by_id sid with _ | ts
  · rw [mint_err_not_exist c bt sid r hs] at h
    exact absurd h (by simp)
  · rcases hm : ts.is_mintable with _ | _
    · rw [mint_err_not_mintable c bt sid r ts hs hm] at h
      exact absurd h (by simp)
    · by_cases hcap : ts.tokens.length < ts.metadata.copies.getD U64_MAX
      · rw [mint_ok c bt sid r ts hs hm hcap] at h
        simp only [Except.ok.injEq, Prod.mk.injEq] at h
        exact ⟨ts, rfl, hm, hcap, h.1.symm, h.2.symm⟩
      · rw [mint_err_maxed c bt sid r ts hs hm (Nat.not_lt.mp hcap)] at h
        exact absurd h (by simp)

@[simp] theorem mintState_account_id_og (c : Contract) (bt : Nat)
    (sid : TokenSeriesId) (r : AccountId) (ts : TokenSeries) :
    (mintState c bt sid r ts).account_id_og = c.account_id_og := rfl

@[simp] theorem mintState_transaction_fee (c : Contract) (bt : Nat)
    (sid : TokenSeriesId) (r : AccountId) (ts : TokenSeries) :
    (mintState c bt sid r ts).transaction_fee = c.transaction_fee := rfl

@[simp] theorem mintState_market_data (c : Contract) (bt : Nat)
    (sid : TokenSeriesId) (r : AccountId) (ts : TokenSeries) :
    (mintState c bt sid r ts).market_data_transaction_fee =
      c.market_data_transaction_fee := rfl

@[simp] theorem mintState_treasury (c : Contract) (bt : Nat)
    (sid : TokenSeriesId) (r : AccountId) (ts : TokenSeries) :
    (mintState c bt sid r ts).treasury_id = c.treasury_id := rfl

@[simp] theorem mintState_raffle (c : Contract) (bt : Nat)
    (sid : TokenSeriesId) (r : AccountId) (ts : TokenSeries) :
    (mintState c bt sid r ts).raffle = c.raffle := rfl

@[simp] theorem mintState_owner_id (c : Contract) (bt : Nat)
    (sid : TokenSeriesId) (r : AccountId) (ts : TokenSeries) :
    (mintState c bt sid r ts).owner_id = c.owner_id := rfl

@[simp] theorem mintState_token_series_by_id (c : Contract) (bt : Nat)
    (sid : TokenSeriesId) (r : AccountId) (ts : TokenSeries) :
    (mintState c bt sid r ts).token_series_by_id =
      alInsert c.token_series_by_id sid (mintedSeries sid ts) := rfl

@[simp] theorem mintState_owner_by_id (c : Contract) (bt : Nat)
    (sid : TokenSeriesId) (r : AccountId) (ts : TokenSeries) :
    (mintState c bt sid r ts).owner_by_id =
      alInsert c.owner_by_id { series := sid, edition := ts.tokens.length + 1 } r :=
  rfl

/-! ## Claim C5: the fee scheduler -/

/-- C5: scheduling a fee change (next < 10,000, activation strictly in the
future) leaves the current fee in place with the pending pair recorded;
settling before the activation time changes nothing and keeps the pending pair
intact; settling at or after it installs the next fee and clears the pending
pair, and settling again afterwards is a no-op; scheduling with no activation
time applies the next fee immediately and clears any pending change. -/
theorem C5_fee_scheduler_settlement (c : Contract) (bt now now2 : Nat)
    (nf : Nat) (T : TimestampSec) (hnf : nf < 10000) (hT : to_sec bt < T) :
    ∃ c1, set_transaction_fee c c.owner_id 1 bt nf (some T) = .ok c1 ∧
      c1.transaction_fee.current_fee = c.transaction_fee.current_fee ∧
      c1.transaction_fee.next_fee = some nf ∧
      c1.transaction_fee.start_time = some T ∧
      (to_sec now < T →
        calculate_current_transaction_fee c1 now =
          (c.transaction_fee.current_fee, c1)) ∧
      (T ≤ to_sec now →
        calculate_current_transaction_fee c1 now =
          (nf, { c1 with transaction_fee :=
                   { next_fee := none, start_time := none, current_fee := nf } }) ∧
        calculate_current_transaction_fee
          (calculate_current_transaction_fee c1 now).2 now2 =
          (nf, (calculate_current_transaction_fee c1 now).2)) ∧
      set_transaction_fee c c.owner_id 1 bt nf none =
        .ok { c with transaction_fee :=
                { next_fee := none, start_time := none, current_fee := nf } } := by
  refine ⟨{ c with transaction_fee :=
              { c.transaction_fee with next_fee := some nf, start_time := some T } },
          ?_, rfl, rfl, rfl, ?_, ?_, ?_⟩
  · simp [set_transaction_fee, hnf, hT]
  · intro hlt
    simp [calculate_current_transaction_fee, Nat.not_le.mpr hlt]
  · intro hge
    constructor
    · simp [calculate_current_transaction_fee, hge]
    · simp [calculate_current_transaction_fee, hge]
  · simp [set_transaction_fee, hnf]

/-- Witness for C5 at concrete inputs (fee 500, schedule 100 at T = 10s,
settle at 5s and at 12s). -/
theorem C5_fee_scheduler_settlement_witness :
    (100 : Nat) < 10000 ∧
    to_sec 0 < 10 ∧
    (∃ c1, set_transaction_fee (Contract.new "o" "t" 0 "w" 500)
        (Contract.new "o" "t" 0 "w" 500).owner_id 1 0 100 (some 10) = .ok c1 ∧
      c1.transaction_fee.current_fee =
        (Contract.new "o" "t" 0 "w" 500).transaction_fee.current_fee ∧
      c1.transaction_fee.next_fee = some 100 ∧
      c1.transaction_fee.start_time = some 10 ∧
      (to_sec 12000000000 < 10 →
        calculate_current_transaction_fee c1 12000000000 =
          ((Contract.new "o" "t" 0 "w" 500).transaction_fee.current_fee, c1)) ∧
      (10 ≤ to_sec 12000000000 →
        calculate_current_transaction_fee c1 12000000000 =
          (100, { c1 with transaction_fee :=
                    { next_fee := none, start_time := none, current_fee := 100 } }) ∧
        calculate_current_transaction_fee
          (calculate_current_transaction_fee c1 12000000000).2 13000000000 =
          (100, (calculate_current_transaction_fee c1 12000000000).2)) ∧
      set_transaction_fee (Contract.new "o" "t" 0 "w" 500)
          (Contract.new "o" "t" 0 "w" 500).owner_id 1 0 100 none =
        .ok { Contract.new "o" "t" 0 "w" 500 with transaction_fee :=
                { next_fee := none, start_time := none, current_fee := 100 } }) :=
  ⟨by decide, by decide,
   C5_fee_scheduler_settlement (Contract.new "o" "t" 0 "w" 500) 0 12000000000
     13000000000 100 10 (by decide) (by decide)⟩

/-! ## Claim C10: decress_balance_og -/

/-- C10: decress_balance_og checks neither the caller nor the attached
deposit: for every caller and deposit it stores balance_mint_og - 1 for the
given account (provided the u32 subtraction does not underflow), while the
sibling OG mutators add_og_account_id, remove_og_account_id and
set_balance_mint_og all fail for a non-owner caller or a deposit other than
one yoctoNEAR; and a successful nft_mint ends with the calling OG account's
balance decremented by exactly one. -/
theorem C10_decress_balance_og_unchecked
    (c : Contract) (p : AccountId) (d : Nat) (a : AccountId) (b : Nat)
    (hb : 1 ≤ b)
    (c' : Contract) (p' : AccountId) (d' : Nat) (a' : AccountId)
    (bo : Option Nat) (bn : Nat)
    (hbad : p' ≠ c'.owner_id ∨ d' ≠ 1)
    (cm : Contract) (pm : AccountId) (btm : Nat) (sidm : TokenSeriesId)
    (rm : AccountId) (cm2 : Contract) (tidm : TokenId)
    (hmint : nft_mint cm pm btm sidm rm = .ok (cm2, tidm)) :
    decress_balance_og c p d a b =
      .ok { c with account_id_og := alInsert c.account_id_og a (b - 1) } ∧
    (∃ e, add_og_account_id c' p' d' a' bo = .error e) ∧
    (∃ e, remove_og_account_id c' p' d' a' = .error e) ∧
    (∃ e, set_balance_mint_og c' p' d' bn = .error e) ∧
    (∃ bprev, alGet cm.account_id_og pm = some bprev ∧ 1 ≤ bprev ∧
       alGet cm2.account_id_og pm = some (bprev - 1)) := by
  refine ⟨?_, ?_, ?_, ?_, ?_⟩
  · simp [decress_balance_og, Nat.pos_iff_ne_zero.mp hb]
  · rcases hbad with hbad | hbad
    · by_cases hd : d' = 1
      · exact ⟨"Paras: Owner only", by simp [add_og_account_id, hd, hbad]⟩
      · exact ⟨"Requires attached deposit of exactly 1 yoctoNEAR",
          by simp [add_og_account_id, hd]⟩
    · exact ⟨"Requires attached deposit of exactly 1 yoctoNEAR",
        by simp [add_og_account_id, hbad]⟩
  · rcases hbad with hbad | hbad
    · by_cases hd : d' = 1
      · exact ⟨"Paras: Owner only", by simp [remove_og_account_id, hd, hbad]⟩
      · exact ⟨"Requires attached deposit of exactly 1 yoctoNEAR",
          by simp [remove_og_account_id, hd]⟩
    · exact ⟨"Requires attached deposit of exactly 1 yoctoNEAR",
        by simp [remove_og_account_id, hbad]⟩
  · rcases hbad with hbad | hbad
    · by_cases hd : d' = 1
      · exact ⟨"Paras: Owner only", by simp [set_balance_mint_og, hd, hbad]⟩
      · exact ⟨"Requires attached deposit of exactly 1 yoctoNEAR",
          by simp [set_balance_mint_og, hd]⟩
    · exact ⟨"Requires attached deposit of exactly 1 yoctoNEAR",
        by simp [set_balance_mint_og, hbad]⟩
  · -- invert nft_mint
    unfold nft_mint at hmint
    by_cases hcontain : alContains cm.account_id_og pm
    · rw [if_neg (by simp [hcontain])] at hmint
      rcases hbal : alGet cm.account_id_og pm with _ | bprev
      · simp [alContains, hbal] at hcontain
      · rw [hbal] at hmint
        by_cases hpos : bprev = 0
        · simp [hpos] at hmint
        · rw [if_neg (by simp [Option.getD, hpos])] at hmint
          by_cases hser : (alGet cm.token_series_by_id sidm).isNone
          · simp [hser] at hmint
          · rw [if_neg hser] at hmint
            rcases hrun : _nft_mint_series cm btm sidm rm with e | cp
            · rw [hrun] at hmint; exact absurd hmint (by simp)
            · rw [hrun] at hmint
              obtain ⟨cmint, tmint⟩ := cp
              simp only [Option.getD_some] at hmint
              unfold decress_balance_og at hmint
              rw [if_neg hpos] at hmint
              simp only [Except.ok.injEq, Prod.mk.injEq] at hmint
              obtain ⟨ts, _, _, _, hstate, _⟩ := mint_inv cm btm sidm rm cmint tmint hrun
              refine ⟨bprev, rfl, Nat.one_le_iff_ne_zero.mpr hpos, ?_⟩
              rw [← hmint.1]
              simp [hstate]

    · simp [hcontain] at hmint

/-- Concrete pre-state for the C10 witness: one OG account with balance 2 and
one open series. -/
def C10w_ts : TokenSeries :=
  { metadata := { title := some "T" }, creator_id := "o", tokens := [],
    price := none, is_mintable := true, royalty := [] }

def C10w_state : Contract :=
  { owner_id := "o", owner_by_id := [], token_metadata_by_id := [],
    approvals_by_id := [], next_approval_id_by_id := [], tokens_per_owner := [],
    token_series_by_id := [("1", C10w_ts)], seller_by_id := [], raffle := [],
    token_series_id_minted := 0, treasury_id := "t",
    transaction_fee := { next_fee := none, start_time := none, current_fee := 500 },
    account_id_og := [("ogu", 2)], balance_mint_og := 0,
    market_data_transaction_fee := [] }

/-- The post-state of the successful OG mint in the C10 witness. -/
def C10w_state2 : Contract :=
  { owner_id := "o",
    owner_by_id := [({ series := "1", edition := 1 }, "recv")],
    token_metadata_by_id := [({ series := "1", edition := 1 },
                              { issued_at := some "0" })],
    approvals_by_id := [], next_approval_id_by_id := [],
    tokens_per_owner := [("recv", [{ series := "1", edition := 1 }])],
    token_series_by_id := [("1",
      { metadata := { title := some "T" }, creator_id := "o",
        tokens := [{ series := "1", edition := 1 }], price := none,
        is_mintable := true, royalty := [] })],
    seller_by_id := [], raffle := [], token_series_id_minted := 1,
    treasury_id := "t",
    transaction_fee := { next_fee := none, start_time := none, current_fee := 500 },
    account_id_og := [("ogu", 1)], balance_mint_og := 0,
    market_data_transaction_fee := [] }

/-- Witness for C10: an arbitrary caller with no deposit decrements a
victim's OG balance; the sibling mutators refuse the same caller; the
concrete OG mint moves the caller's balance from 2 to 1. -/
theorem C10_decress_balance_og_unchecked_witness :
    decress_balance_og C10w_state "anyone" 0 "victim" 5 =
      .ok { C10w_state with
              account_id_og := alInsert C10w_state.account_id_og "victim" 4 } ∧
    (∃ e, add_og_account_id C10w_state "anyone" 0 "x" none = .error e) ∧
    (∃ e, remove_og_account_id C10w_state "anyone" 0 "x" = .error e) ∧
    (∃ e, set_balance_mint_og C10w_state "anyone" 0 7 = .error e) ∧
    (∃ bprev, alGet C10w_state.account_id_og "ogu" = some bprev ∧ 1 ≤ bprev ∧
       alGet C10w_state2.account_id_og "ogu" = some (bprev - 1)) :=
  C10_decress_balance_og_unchecked C10w_state "anyone" 0 "victim" 5 (by decide)
    C10w_state "anyone" 0 "x" none 7 (Or.inl (by decide))
    C10w_state "ogu" 0 "1" "recv" C10w_state2 { series := "1", edition := 1 }
    (by rfl)

/-! ## Claim C7: the payee-count guard -/

/-- Concrete state for C7: a series with two royalty payees, a token owned by
an account that is not among them. -/
def C7x_state : Contract :=
  { owner_id := "o",
    owner_by_id := [({ series := "1", edition := 1 }, "carol")],
    token_metadata_by_id := [], approvals_by_id := [],
    next_approval_id_by_id := [], tokens_per_owner := [],
    token_series_by_id := [("1",
      { metadata := { title := some "T" }, creator_id := "o",
        tokens := [{ series := "1", edition := 1 }], price := none,
        is_mintable := true, royalty := [("alice", 100), ("bob", 200)] })],
    seller_by_id := [], raffle := [], token_series_id_minted := 1,
    treasury_id := "t",
    transaction_fee := { next_fee := none, start_time := none, current_fee := 500 },
    account_id_og := [], balance_mint_og := 0,
    market_data_transaction_fee := [] }

/-- C7 counterexample: with two royalty entries, an owner not among them and
max_len_payout = 2, the resulting payout map holds three distinct payees —
more than the caller-supplied maximum — yet nft_payout succeeds instead of
failing: the guard compares the royalty-map length, not the payout size. -/
theorem C7_counterexample_payee_guard :
    nft_payout C7x_state { series := "1", edition := 1 } 10000 2 =
      .ok [("alice", 100), ("bob", 200), ("carol", 9700)] ∧
    ([("alice", 100), ("bob", 200), ("carol", 9700)].map Prod.fst).Nodup ∧
    2 < ([("alice", 100), ("bob", 200), ("carol", 9700)].map Prod.fst).length := by
  refine ⟨by rfl, by decide, by decide⟩

/-- C7 as amended: nft_payout (and the payout branch of nft_transfer_payout,
when a balance is supplied) fails with the payee-count error exactly when the
number of entries of the royalty map exceeds max_len_payout; the resulting
payout map itself may hold one more payee than that bound, because the owner
is added on top of the royalty entries. -/
theorem C7_payee_guard_amended (c : Contract) (tid : TokenId) (balance maxlen : Nat)
    (owner : AccountId) (ts : TokenSeries)
    (hown : alGet c.owner_by_id tid = some owner)
    (hser : alGet c.token_series_by_id tid.series = some ts) :
    (maxlen < ts.royalty.length →
      nft_payout c tid balance maxlen =
        .error "Market cannot payout to that many receivers") ∧
    (ts.royalty.length ≤ maxlen →
      ∃ pay, nft_payout c tid balance maxlen = .ok pay) ∧
    (∀ (roy : List (AccountId × Nat)) (prev : AccountId) (bal ml : Nat),
      ml < roy.length →
      nft_transfer_payout_calc roy prev (some bal) (some ml) =
        .error "Market cannot payout to that many receivers") ∧
    (∀ (roy : List (AccountId × Nat)) (prev : AccountId) (bal ml : Nat),
      roy.length ≤ ml →
      nft_transfer_payout_calc roy prev (some bal) (some ml) ≠
        .error "Market cannot payout to that many receivers") := by
  refine ⟨?_, ?_, ?_, ?_⟩
  · intro hlen
    simp [nft_payout, hown, hser, Nat.not_le.mpr hlen]
  · intro hlen
    rcases h : nft_payout c tid balance maxlen with e | pay
    · exfalso
      simp only [nft_payout, hown, hser] at h
      rw [if_neg (by simpa using hlen)] at h
      exact absurd h (by simp)
    · exact ⟨pay, rfl⟩
  · intro roy prev bal ml hlen
    simp [nft_transfer_payout_calc, Nat.not_le.mpr hlen]
  · intro roy prev bal ml hlen
    simp only [nft_transfer_payout_calc]
    rw [if_neg (by simpa using hlen)]
    by_cases hoverflow :
        (roy.foldl
          (fun acc kv =>
            if kv.1 ≠ prev then
              (alInsert acc.1 kv.1 (royalty_to_payout kv.2 bal), acc.2 + kv.2)
            else acc)
          ([], 0)).2 ≤ 10000
    · rw [if_neg (by simpa using hoverflow)]
      simp
    · rw [if_pos (by simpa using hoverflow)]
      simp

/-- Witness for the amended C7 at the concrete state: the guard fires for
max_len_payout = 1 and passes for max_len_payout = 2. -/
theorem C7_payee_guard_amended_witness :
    (2 < ([("alice", 100), ("bob", 200)] : List (AccountId × Nat)).length →
      nft_payout C7x_state { series := "1", edition := 1 } 10000 2 =
        .error "Market cannot payout to that many receivers") ∧
    (([("alice", 100), ("bob", 200)] : List (AccountId × Nat)).length ≤ 2 →
      ∃ pay, nft_payout C7x_state { series := "1", edition := 1 } 10000 2 = .ok pay) ∧
    (∀ (roy : List (AccountId × Nat)) (prev : AccountId) (bal ml : Nat),
      ml < roy.length →
      nft_transfer_payout_calc roy prev (some bal) (some ml) =
        .error "Market cannot payout to that many receivers") ∧
    (∀ (roy : List (AccountId × Nat)) (prev : AccountId) (bal ml : Nat),
      roy.length ≤ ml →
      nft_transfer_payout_calc roy prev (some bal) (some ml) ≠
        .error "Market cannot payout to that many receivers") :=
  C7_payee_guard_amended C7x_state { series := "1", edition := 1 } 10000 2 "carol"
    { metadata := { title := some "T" }, creator_id := "o",
      tokens := [{ series := "1", edition := 1 }], price := none,
      is_mintable := true, royalty := [("alice", 100), ("bob", 200)] }
    (by rfl) (by rfl)

/-! ## Claim C3: the royalty splitter arithmetic -/

/-- Closed form of the non-owner part of the payout the loop builds. -/
def nonOwnerPayouts (royalty : List (AccountId × Nat)) (owner : AccountId)
    (balance : Nat) : List (AccountId × Nat) :=
  (royalty.filter (fun kv => kv.1 ≠ owner)).map
    (fun kv => (kv.1, royalty_to_payout kv.2 balance))

/-- The basis points the loop consumes (total_perpetual): those of the
non-owner entries. -/
def nonOwnerTotal (royalty : List (AccountId × Nat)) (owner : AccountId) : Nat :=
  ((royalty.filter (fun kv => kv.1 ≠ owner)).map Prod.snd).sum

theorem royaltyTotal_go (royalty : List (AccountId × Nat)) (n : Nat) :
    royalty.foldl (fun acc kv => acc + kv.2) n = n + (royalty.map Prod.snd).sum := by
  induction royalty generalizing n with
  | nil => simp
  | cons hd t ih => simp [ih, Nat.add_assoc]

theorem royaltyTotal_eq_sum (royalty : List (AccountId × Nat)) :
    royaltyTotal royalty = (royalty.map Prod.snd).sum := by
  simpa using royaltyTotal_go royalty 0

theorem sum_map_filter_le {α : Type} (p : α × Nat → Bool) (l : List (α × Nat)) :
    ((l.filter p).map Prod.snd).sum ≤ (l.map Prod.snd).sum := by
  induction l with
  | nil => simp
  | cons hd t ih =>
    rw [List.filter_cons]
    by_cases h : p hd
    · simp only [h, if_true, List.map_cons, List.sum_cons]
      exact Nat.add_le_add_left ih hd.2
    · rw [if_neg (by simpa using h)]
      simp only [List.map_cons, List.sum_cons]
      exact le_trans ih (Nat.le_add_left _ _)

theorem nonOwnerTotal_le_royaltyTotal (royalty : List (AccountId × Nat))
    (owner : AccountId) : nonOwnerTotal royalty owner ≤ royaltyTotal royalty := by
  rw [royaltyTotal_eq_sum]
  exact sum_map_filter_le _ royalty

theorem keys_nonOwnerPayouts_ne_owner (royalty : List (AccountId × Nat))
    (owner : AccountId) (balance : Nat) (k : AccountId)
    (h : k ∈ (nonOwnerPayouts royalty owner balance).map Prod.fst) : k ≠ owner := by
  unfold nonOwnerPayouts at h
  simp only [List.map_map, List.mem_map, List.mem_filter] at h
  obtain ⟨kv, ⟨_, hne⟩, hk⟩ := h
  simp only [Function.comp] at hk
  subst hk
  simpa using hne

/-- The payout-building loop, run from an arbitrary accumulator whose keys are
disjoint from the (distinct) non-owner royalty keys, appends the closed-form
payouts and adds the non-owner basis points. -/
theorem payoutFold_eq (royalty : List (AccountId × Nat)) (owner : AccountId)
    (balance : Nat) (acc : List (AccountId × Nat)) (t : Nat)
    (hnodup : (royalty.map Prod.fst).Nodup)
    (hfresh : ∀ kv ∈ royalty, kv.1 ∉ acc.map Prod.fst) :
    royalty.foldl
      (fun acc kv =>
        if kv.1 ≠ owner then
          (alInsert acc.1 kv.1 (royalty_to_payout kv.2 balance), acc.2 + kv.2)
        else acc)
      (acc, t) =
    (acc ++ nonOwnerPayouts royalty owner balance,
     t + nonOwnerTotal royalty owner) := by
  induction royalty generalizing acc t with
  | nil => simp [nonOwnerPayouts, nonOwnerTotal]
  | cons hd rest ih =>
    obtain ⟨k, v⟩ := hd
    simp only [List.map_cons, List.nodup_cons] at hnodup
    by_cases hk : k ≠ owner
    · simp only [List.foldl_cons, if_pos hk]
      have hkacc : k ∉ acc.map Prod.fst := by
        simpa using hfresh (k, v) (List.mem_cons_self _ _)
      have hins : alInsert acc k (royalty_to_payout v balance) =
          acc ++ [(k, royalty_to_payout v balance)] := by
        have : alGet acc k = none :=
          alGet_eq_none_of_not_mem_keys acc k hkacc
        clear hfresh hnodup ih
        induction acc with
        | nil => simp [alInsert]
        | cons a tl ihacc =>
          obtain ⟨k1, v1⟩ := a
          simp only [List.map_cons, List.mem_cons] at hkacc
          push_neg at hkacc
          simp only [alGet_cons, if_neg hkacc.1] at this
          simp [alInsert, hkacc.1, ihacc hkacc.2 this]
      rw [hins]
      rw [ih (acc ++ [(k, royalty_to_payout v balance)]) (t + v) hnodup.2 ?_]
      · have e1 : nonOwnerPayouts ((k, v) :: rest) owner balance =
            (k, royalty_to_payout v balance) :: nonOwnerPayouts rest owner balance := by
          simp [nonOwnerPayouts, List.filter_cons, hk]
        have e2 : nonOwnerTotal ((k, v) :: rest) owner =
            v + nonOwnerTotal rest owner := by
          simp [nonOwnerTotal, List.filter_cons, hk]
        rw [e1, e2]
        simp [List.append_assoc, Nat.add_assoc]
      · intro kv hkv
        simp only [List.map_append, List.map_cons, List.map_nil, List.mem_append,
          List.mem_singleton]
        push_neg
        refine ⟨by simpa using hfresh kv (List.mem_cons_of_mem _ hkv), ?_⟩
        intro hc
        exact hnodup.1 (hc ▸ (List.mem_map.mpr ⟨kv, hkv, rfl⟩))
    · simp only [List.foldl_cons, if_neg hk]
      rw [ih acc t hnodup.2 (fun kv hkv => hfresh kv (List.mem_cons_of_mem _ hkv))]
      push_neg at hk
      have e1 : nonOwnerPayouts ((k, v) :: rest) owner balance =
          nonOwnerPayouts rest owner balance := by
        simp [nonOwnerPayouts, List.filter_cons, hk]
      have e2 : nonOwnerTotal ((k, v) :: rest) owner = nonOwnerTotal rest owner := by
        simp [nonOwnerTotal, List.filter_cons, hk]
      rw [e1, e2]

theorem alGet_nonOwnerPayouts (royalty : List (AccountId × Nat))
    (owner : AccountId) (balance : Nat) (k : AccountId) (v : Nat)
    (hnodup : (royalty.map Prod.fst).Nodup)
    (hmem : (k, v) ∈ royalty) (hk : k ≠ owner) :
    alGet (nonOwnerPayouts royalty owner balance) k =
      some (royalty_to_payout v balance) := by
  induction royalty with
  | nil => simp at hmem
  | cons hd rest ih =>
    obtain ⟨k1, v1⟩ := hd
    simp only [List.map_cons, List.nodup_cons] at hnodup
    rcases List.mem_cons.mp hmem with heq | htail
    · simp only [Prod.mk.injEq] at heq
      have e1 : nonOwnerPayouts ((k1, v1) :: rest) owner balance =
          (k1, royalty_to_payout v1 balance) :: nonOwnerPayouts rest owner balance := by
        simp [nonOwnerPayouts, List.filter_cons, heq.1 ▸ hk]
      rw [e1, heq.1, heq.2]
      simp [alGet]
    · by_cases h1 : k1 ≠ owner
      · have e1 : nonOwnerPayouts ((k1, v1) :: rest) owner balance =
            (k1, royalty_to_payout v1 balance) :: nonOwnerPayouts rest owner balance := by
          simp [nonOwnerPayouts, List.filter_cons, h1]
        have hkk1 : k ≠ k1 := by
          intro hc
          subst hc
          exact hnodup.1 (List.mem_map.mpr ⟨(k, v), htail, rfl⟩)
        rw [e1]
        simp only [alGet_cons, if_neg hkk1]
        exact ih hnodup.2 htail
      · push_neg at h1
        have e1 : nonOwnerPayouts ((k1, v1) :: rest) owner balance =
            nonOwnerPayouts rest owner balance := by
          simp [nonOwnerPayouts, List.filter_cons, h1]
        rw [e1]
        exact ih hnodup.2 htail

theorem sum_nonOwnerPayouts_le (royalty : List (AccountId × Nat))
    (owner : AccountId) (balance : Nat) :
    ((nonOwnerPayouts royalty owner balance).map Prod.snd).sum ≤
      nonOwnerTotal royalty owner * balance / 10000 := by
  induction royalty with
  | nil => simp [nonOwnerPayouts, nonOwnerTotal]
  | cons hd rest ih =>
    by_cases h : hd.1 ≠ owner
    · have e1 : nonOwnerPayouts (hd :: rest) owner balance =
          (hd.1, royalty_to_payout hd.2 balance) :: nonOwnerPayouts rest owner balance := by
        simp [nonOwnerPayouts, List.filter_cons, h]
      have e2 : nonOwnerTotal (hd :: rest) owner =
          hd.2 + nonOwnerTotal rest owner := by
        simp [nonOwnerTotal, List.filter_cons, h]
      rw [e1, e2]
      simp only [List.map_cons, List.sum_cons, royalty_to_payout]
      refine le_trans (Nat.add_le_add_left ih _) ?_
      refine le_trans (Nat.add_div_le_add_div _ _ _) ?_
      rw [Nat.add_mul]
    · push_neg at h
      have e1 : nonOwnerPayouts (hd :: rest) owner balance =
          nonOwnerPayouts rest owner balance := by
        simp [nonOwnerPayouts, List.filter_cons, h]
      have e2 : nonOwnerTotal (hd :: rest) owner = nonOwnerTotal rest owner := by
        simp [nonOwnerTotal, List.filter_cons, h]
      rw [e1, e2]
      exact ih

/-- C3: for a royalty map with pairwise-distinct accounts summing to
B ≤ 9000 basis points, any token owner and any sale amount, nft_payout
succeeds (under its payee-count bound) with: the non-owner entries paid
floor(bps*amount/10000) each, the owner paid
floor((10000 - consumed)*amount/10000) where only non-owner basis points are
consumed (entries naming the owner are dropped from the explicit list and
folded into the owner's remainder), the owner's payout at least
floor((10000-B)*amount/10000), and the payouts summing to at most the sale
amount. -/
theorem C3_royalty_splitter (c : Contract) (tid : TokenId) (balance maxlen : Nat)
    (owner : AccountId) (ts : TokenSeries) (B : Nat)
    (hown : alGet c.owner_by_id tid = some owner)
    (hser : alGet c.token_series_by_id tid.series = some ts)
    (hnodup : (ts.royalty.map Prod.fst).Nodup)
    (hB : royaltyTotal ts.royalty = B) (hB9 : B ≤ 9000)
    (hlen : ts.royalty.length ≤ maxlen) :
    ∃ pay, nft_payout c tid balance maxlen = .ok pay ∧
      pay = nonOwnerPayouts ts.royalty owner balance ++
        [(owner, royalty_to_payout (10000 - nonOwnerTotal ts.royalty owner) balance)] ∧
      (pay.map Prod.snd).sum ≤ balance ∧
      alGet pay owner =
        some (royalty_to_payout (10000 - nonOwnerTotal ts.royalty owner) balance) ∧
      (10000 - B) * balance / 10000 ≤
        royalty_to_payout (10000 - nonOwnerTotal ts.royalty owner) balance ∧
      (∀ k v, (k, v) ∈ ts.royalty → k ≠ owner →
        alGet pay k = some (v * balance / 10000)) ∧
      pay.map Prod.fst =
        (ts.royalty.filter (fun kv => kv.1 ≠ owner)).map Prod.fst ++ [owner] := by
  have htotal : nonOwnerTotal ts.royalty owner ≤ B :=
    hB ▸ nonOwnerTotal_le_royaltyTotal ts.royalty owner
  have howner_notin : alGet (nonOwnerPayouts ts.royalty owner balance) owner = none := by
    apply alGet_eq_none_of_not_mem_keys
    intro hmem
    exact keys_nonOwnerPayouts_ne_owner ts.royalty owner balance owner hmem rfl
  have hins : alInsert (nonOwnerPayouts ts.royalty owner balance) owner
      (royalty_to_payout (10000 - nonOwnerTotal ts.royalty owner) balance) =
      nonOwnerPayouts ts.royalty owner balance ++
        [(owner, royalty_to_payout (10000 - nonOwnerTotal ts.royalty owner) balance)] := by
    set l := nonOwnerPayouts ts.royalty owner balance with hl
    clear_value l
    clear hl
    induction l with
    | nil => simp [alInsert]
    | cons a tl ihl =>
      obtain ⟨k1, v1⟩ := a
      simp only [alGet_cons] at howner_notin
      by_cases hk1 : owner = k1
      · simp [hk1] at howner_notin
      · simp only [if_neg hk1] at howner_notin
        simp [alInsert, hk1, ihl howner_notin]
  have hpayeq : nft_payout c tid balance maxlen =
      .ok (nonOwnerPayouts ts.royalty owner balance ++
        [(owner, royalty_to_payout (10000 - nonOwnerTotal ts.royalty owner) balance)]) := by
    simp only [nft_payout, hown, hser]
    rw [if_neg (by simpa using hlen)]
    rw [payoutFold_eq ts.royalty owner balance [] 0 hnodup (by simp)]
    simp only [List.nil_append, Nat.zero_add]
    rw [hins]
  refine ⟨_, hpayeq, rfl, ?_, ?_, ?_, ?_, ?_⟩
  · -- the payouts sum to at most the balance
    have h1 := sum_nonOwnerPayouts_le ts.royalty owner balance
    have ht10 : nonOwnerTotal ts.royalty owner ≤ 10000 :=
      le_trans htotal (le_trans hB9 (by norm_num))
    calc ((nonOwnerPayouts ts.royalty owner balance ++
            [(owner, royalty_to_payout (10000 - nonOwnerTotal ts.royalty owner) balance)]).map
              Prod.snd).sum
        = ((nonOwnerPayouts ts.royalty owner balance).map Prod.snd).sum +
            (10000 - nonOwnerTotal ts.royalty owner) * balance / 10000 := by
          simp [royalty_to_payout]
      _ ≤ nonOwnerTotal ts.royalty owner * balance / 10000 +
            (10000 - nonOwnerTotal ts.royalty owner) * balance / 10000 :=
          Nat.add_le_add_right h1 _
      _ ≤ (nonOwnerTotal ts.royalty owner * balance +
            (10000 - nonOwnerTotal ts.royalty owner) * balance) / 10000 :=
          Nat.add_div_le_add_div _ _ _
      _ = 10000 * balance / 10000 := by
          rw [← Nat.add_mul, Nat.add_sub_cancel' ht10]
      _ = balance := by omega
  · rw [alGet_append_right _ _ owner howner_notin]
    simp [alGet]
  · apply Nat.div_le_div_right
    exact Nat.mul_le_mul_right balance (Nat.sub_le_sub_left htotal 10000)
  · intro k v hmem hk
    rw [alGet_append_left _ _ k (v * balance / 10000)
      (by simpa [royalty_to_payout] using
        alGet_nonOwnerPayouts ts.royalty owner balance k v hnodup hmem hk)]
  · simp [nonOwnerPayouts, List.map_map, Function.comp]

/-- Concrete state for the C3 witness: royalty 1000 bps to alice and 2000 bps
to the owner carol herself (B = 3000). -/
def C3x_ts : TokenSeries :=
  { metadata := { title := some "T" }, creator_id := "o",
    tokens := [{ series := "1", edition := 1 }], price := none,
    is_mintable := true, royalty := [("alice", 1000), ("carol", 2000)] }

def C3x_state : Contract :=
  { owner_id := "o",
    owner_by_id := [({ series := "1", edition := 1 }, "carol")],
    token_metadata_by_id := [], approvals_by_id := [],
    next_approval_id_by_id := [], tokens_per_owner := [],
    token_series_by_id := [("1", C3x_ts)],
    seller_by_id := [], raffle := [], token_series_id_minted := 1,
    treasury_id := "t",
    transaction_fee := { next_fee := none, start_time := none, current_fee := 500 },
    account_id_og := [], balance_mint_og := 0,
    market_data_transaction_fee := [] }

/-- Witness for C3 at sale amount 12345: alice is paid 1234, the owner's
entry folds her own 2000 bps into the remainder (11110), and the total 12344
stays below the sale amount. -/
theorem C3_royalty_splitter_witness :
    ∃ pay, nft_payout C3x_state { series := "1", edition := 1 } 12345 10 = .ok pay ∧
      pay = nonOwnerPayouts C3x_ts.royalty "carol" 12345 ++
        [("carol", royalty_to_payout (10000 - nonOwnerTotal C3x_ts.royalty "carol") 12345)] ∧
      (pay.map Prod.snd).sum ≤ 12345 ∧
      alGet pay "carol" =
        some (royalty_to_payout (10000 - nonOwnerTotal C3x_ts.royalty "carol") 12345) ∧
      (10000 - 3000) * 12345 / 10000 ≤
        royalty_to_payout (10000 - nonOwnerTotal C3x_ts.royalty "carol") 12345 ∧
      (∀ k v, (k, v) ∈ C3x_ts.royalty → k ≠ "carol" →
        alGet pay k = some (v * 12345 / 10000)) ∧
      pay.map Prod.fst =
        (C3x_ts.royalty.filter (fun kv => kv.1 ≠ "carol")).map Prod.fst ++ ["carol"] :=
  C3_royalty_splitter C3x_state { series := "1", edition := 1 } 12345 10 "carol"
    C3x_ts 3000 (by rfl) (by rfl) (by decide) (by rfl) (by decide) (by decide)

/-! ## Claim C2: what a purchase pays out -/

/-- Concrete state for C2: series 1 priced 10000, royalty 1000 bps to alice,
creator carol, fee snapshot 500 bps, no mints yet. -/
def C2x_state : Contract :=
  { owner_id := "o", owner_by_id := [], token_metadata_by_id := [],
    approvals_by_id := [], next_approval_id_by_id := [], tokens_per_owner := [],
    token_series_by_id := [("1",
      { metadata := { title := some "T" }, creator_id := "carol",
        tokens := [], price := some 10000, is_mintable := true,
        royalty := [("alice", 1000)] })],
    seller_by_id := [], raffle := [], token_series_id_minted := 0,
    treasury_id := "treasury",
    transaction_fee := { next_fee := none, start_time := none, current_fee := 500 },
    account_id_og := [], balance_mint_og := 0,
    market_data_transaction_fee := [("1", 500)] }

/-- C2 counterexample: buying series 1 (price 10000, royalty 1000 bps to
alice, snapshot fee 500 bps) pays the creator 9500 = price minus the fee —
not the 8500 the claim predicts (0.9 of the price minus the fee portion), nor
9000 (0.9 of the price): the purchase path never consults the royalty map.
The minted instance 1:1 does go to the buyer and the treasury does get the
fee portion. -/
theorem C2_counterexample_buy_payout :
    (nft_buy C2x_state "bob" 10000 0 "1" "bob").toOption.map
        (fun r => (r.creator_transfer, r.treasury_transfer, r.token_id)) =
      some (("carol", 9500), some ("treasury", 500),
            { series := "1", edition := 1 }) ∧
    (9500 : Nat) ≠ 9000 * 10000 / 10000 - 500 ∧
    (9500 : Nat) ≠ 9000 * 10000 / 10000 := by
  refine ⟨by rfl, by decide, by decide⟩

/-- A successful purchase, characterized: the minted id, the creator and
treasury transfers. -/
theorem buy_ok (c : Contract) (buyer : AccountId) (dep bt : Nat)
    (sid : TokenSeriesId) (recv : AccountId) (ts : TokenSeries) (P f : Nat)
    (hser : alGet c.token_series_by_id sid = some ts)
    (hprice : ts.price = some P) (hdep : P ≤ dep)
    (hmintable : ts.is_mintable = true)
    (hcap2 : ts.tokens.length < ts.metadata.copies.getD U64_MAX)
    (hsnap : alGet c.market_data_transaction_fee sid = some f) :
    nft_buy c buyer dep bt sid recv =
      .ok { state := mintState c bt sid recv ts
            token_id := { series := sid, edition := ts.tokens.length + 1 }
            creator_transfer := (ts.creator_id, P - P * f / 10000)
            treasury_transfer :=
              if P * f / 10000 ≠ 0 then some (c.treasury_id, P * f / 10000)
              else none } := by
  have hmok := mint_ok c bt sid recv ts hser hmintable hcap2
  simp only [nft_buy, hser, hprice]
  rw [if_neg (by simpa using hdep)]
  rw [hmok]
  simp only [calculate_market_data_transaction_fee, mintState_market_data, hsnap]
  rfl

/-- C2 as amended: a purchase of a fresh priced series mints instance sid:1
owned by the buyer, pays the creator price - floor(price*fee/10000) with fee
the per-series snapshot, pays the treasury floor(price*fee/10000) (when
nonzero), and the royalty map plays no role in the purchase: replacing it by
any other map leaves both transfers unchanged. -/
theorem C2_buy_payout_amended (c : Contract) (buyer : AccountId) (dep bt : Nat)
    (sid : TokenSeriesId) (recv : AccountId) (ts : TokenSeries) (P f : Nat)
    (hser : alGet c.token_series_by_id sid = some ts)
    (hprice : ts.price = some P) (hdep : P ≤ dep)
    (hmintable : ts.is_mintable = true) (hempty : ts.tokens = [])
    (hcap : 0 < ts.metadata.copies.getD U64_MAX)
    (hsnap : alGet c.market_data_transaction_fee sid = some f) :
    (∃ res, nft_buy c buyer dep bt sid recv = .ok res ∧
      res.token_id = { series := sid, edition := 1 } ∧
      alGet res.state.owner_by_id { series := sid, edition := 1 } = some recv ∧
      res.creator_transfer = (ts.creator_id, P - P * f / 10000) ∧
      res.treasury_transfer =
        (if P * f / 10000 ≠ 0 then some (c.treasury_id, P * f / 10000) else none)) ∧
    (∀ roy : List (AccountId × Nat),
      ∃ res2, nft_buy
          { c with token_series_by_id :=
              alInsert c.token_series_by_id sid { ts with royalty := roy } }
          buyer dep bt sid recv = .ok res2 ∧
        res2.creator_transfer = (ts.creator_id, P - P * f / 10000) ∧
        res2.treasury_transfer =
          (if P * f / 10000 ≠ 0 then some (c.treasury_id, P * f / 10000) else none)) := by
  have hlen : ts.tokens.length = 0 := by rw [hempty]; rfl
  have hcap2 : ts.tokens.length < ts.metadata.copies.getD U64_MAX := by
    rw [hlen]; exact hcap
  constructor
  · refine ⟨_, buy_ok c buyer dep bt sid recv ts P f hser hprice hdep hmintable
      hcap2 hsnap, ?_, ?_, rfl, rfl⟩
    · simp [hlen]
    · simp [hlen]
  · intro roy
    have hb := buy_ok
      { c with token_series_by_id :=
          alInsert c.token_series_by_id sid { ts with royalty := roy } }
      buyer dep bt sid recv { ts with royalty := roy } P f
      (alGet_alInsert_self _ _ _) hprice hdep hmintable hcap2 hsnap
    exact ⟨_, hb, rfl, rfl⟩

/-- The series record of the C2 witness state. -/
def C2x_ts : TokenSeries :=
  { metadata := { title := some "T" }, creator_id := "carol",
    tokens := [], price := some 10000, is_mintable := true,
    royalty := [("alice", 1000)] }

/-- Witness for the amended C2 at the concrete purchase. -/
theorem C2_buy_payout_amended_witness :
    (∃ res, nft_buy C2x_state "bob" 10000 0 "1" "bob" = .ok res ∧
      res.token_id = { series := "1", edition := 1 } ∧
      alGet res.state.owner_by_id { series := "1", edition := 1 } = some "bob" ∧
      res.creator_transfer = (C2x_ts.creator_id, 10000 - 10000 * 500 / 10000) ∧
      res.treasury_transfer =
        (if 10000 * 500 / 10000 ≠ 0 then
           some (C2x_state.treasury_id, 10000 * 500 / 10000) else none)) ∧
    (∀ roy : List (AccountId × Nat),
      ∃ res2, nft_buy
          { C2x_state with token_series_by_id :=
              (alInsert C2x_state.token_series_by_id "1"
                { C2x_ts with royalty := roy }) }
          "bob" 10000 0 "1" "bob" = .ok res2 ∧
        res2.creator_transfer = (C2x_ts.creator_id, 10000 - 10000 * 500 / 10000) ∧
        res2.treasury_transfer =
          (if 10000 * 500 / 10000 ≠ 0 then
             some (C2x_state.treasury_id, 10000 * 500 / 10000) else none)) :=
  C2_buy_payout_amended C2x_state "bob" 10000 0 "1" "bob" C2x_ts 10000 500
    (by rfl) (by rfl) (by decide) (by rfl) (by rfl) (by decide) (by rfl)

/-! ## Claim C4: the per-series fee snapshot -/

/-- The state after the fee settle-and-snapshot step shared by the creation
and re-pricing paths: settle the fee on c2 and record the result for sid. -/
def snapshotAfter (c2 : Contract) (bt : Nat) (sid : TokenSeriesId) : Contract :=
  let res := calculate_current_transaction_fee c2 bt
  let fee := res.1
  let cset := res.2
  { cset with market_data_transaction_fee :=
      alInsert cset.market_data_transaction_fee sid fee }

/-- The fee value that step snapshots. -/
def settledFee (c2 : Contract) (bt : Nat) : Nat :=
  (calculate_current_transaction_fee c2 bt).1

theorem snapshotAfter_eq (c2 : Contract) (bt : Nat) (sid : TokenSeriesId)
    (fee : Nat) (cset : Contract)
    (h : calculate_current_transaction_fee c2 bt = (fee, cset)) :
    snapshotAfter c2 bt sid =
      { cset with market_data_transaction_fee :=
          alInsert cset.market_data_transaction_fee sid fee } := by
  unfold snapshotAfter
  rw [h]

theorem alGet_snapshotAfter_self (c2 : Contract) (bt : Nat) (sid : TokenSeriesId) :
    alGet (snapshotAfter c2 bt sid).market_data_transaction_fee sid =
      some (settledFee c2 bt) := by
  unfold snapshotAfter settledFee
  rcases h : calculate_current_transaction_fee c2 bt with ⟨fee, cset⟩
  simp

/-- Settling strictly before the activation time is a no-op. -/
theorem settle_noop (c : Contract) (now : Nat) (nf : Nat) (T : TimestampSec)
    (hnext : c.transaction_fee.next_fee = some nf)
    (hstart : c.transaction_fee.start_time = some T)
    (h : to_sec now < T) :
    calculate_current_transaction_fee c now =
      (c.transaction_fee.current_fee, c) := by
  simp [calculate_current_transaction_fee, hnext, hstart, Nat.not_le.mpr h]

/-- Settling at or after the activation time installs the pending fee. -/
theorem settle_fire (c : Contract) (now : Nat) (nf : Nat) (T : TimestampSec)
    (hnext : c.transaction_fee.next_fee = some nf)
    (hstart : c.transaction_fee.start_time = some T)
    (h : T ≤ to_sec now) :
    calculate_current_transaction_fee c now =
      (nf, { c with transaction_fee :=
               { next_fee := none, start_time := none, current_fee := nf } }) := by
  simp [calculate_current_transaction_fee, hnext, hstart, h]

theorem settledFee_noop (c : Contract) (now : Nat) (nf : Nat) (T : TimestampSec)
    (hnext : c.transaction_fee.next_fee = some nf)
    (hstart : c.transaction_fee.start_time = some T)
    (h : to_sec now < T) :
    settledFee c now = c.transaction_fee.current_fee := by
  unfold settledFee
  rw [settle_noop c now nf T hnext hstart h]

theorem settledFee_fire (c : Contract) (now : Nat) (nf : Nat) (T : TimestampSec)
    (hnext : c.transaction_fee.next_fee = some nf)
    (hstart : c.transaction_fee.start_time = some T)
    (h : T ≤ to_sec now) :
    settledFee c now = nf := by
  unfold settledFee
  rw [settle_fire c now nf T hnext hstart h]

theorem calc_fst_fire (c : Contract) (now : Nat) (nf : Nat) (T : TimestampSec)
    (hnext : c.transaction_fee.next_fee = some nf)
    (hstart : c.transaction_fee.start_time = some T)
    (h : T ≤ to_sec now) :
    (calculate_current_transaction_fee c now).1 = nf := by
  rw [settle_fire c now nf T hnext hstart h]

/-- The registry state right after the creation path inserts the new series,
before the fee snapshot. -/
def createdState (c : Contract) (md : TokenMetadata) (P : Nat) : Contract :=
  let ts : TokenSeries :=
    { metadata := md, creator_id := c.owner_id, tokens := [],
      price := some P, is_mintable := true, royalty := [] }
  { c with token_series_by_id :=
      alInsert c.token_series_by_id (toString (c.token_series_by_id.length + 1)) ts }

/-- The registry state right after the re-pricing path stores the new price,
before the fee snapshot. -/
def repricedState (c : Contract) (sid : TokenSeriesId) (ts : TokenSeries)
    (pr : Option Nat) : Contract :=
  let ts2 := { ts with price := pr }
  { c with token_series_by_id := alInsert c.token_series_by_id sid ts2 }

/-- A successful auto-id series creation (platform owner, no explicit
creator, priced, no royalty), characterized. -/
theorem create_ok (c : Contract) (bt : Nat) (md : TokenMetadata) (P : Nat)
    (hdup : alGet c.token_series_by_id
      (toString (c.token_series_by_id.length + 1)) = none)
    (htitle : md.title.isSome) (hP : P < MAX_PRICE) :
    nft_create_series c c.owner_id bt none md (some P) none =
      .ok (snapshotAfter (createdState c md P) bt
             (toString (c.token_series_by_id.length + 1)),
           { token_series_id := toString (c.token_series_by_id.length + 1),
             metadata := md,
             creator_id := c.owner_id,
             royalty := [],
             transaction_fee := some (settledFee (createdState c md P) bt) }) := by
  rcases ht : md.title with _ | ttl
  · rw [ht] at htitle
    simp at htitle
  · simp only [nft_create_series, createSeriesChecked]
    rw [if_neg (by simp)]
    rw [if_neg (by simp [creatorMismatch])]
    rw [if_neg (by simp [hdup])]
    rw [if_neg (by simp [ht])]
    simp only [Option.getD_none]
    rw [if_neg (by simp)]
    rw [if_neg (by simp)]
    rw [if_neg (by simp [royaltyTotal])]
    rw [if_neg (by simp [priceTooHigh, hP])]
    rfl

/-- A successful series re-pricing by the creator, characterized. -/
theorem set_price_ok (c : Contract) (bt : Nat) (sid : TokenSeriesId)
    (pr : Option Nat) (ts : TokenSeries)
    (hser : alGet c.token_series_by_id sid = some ts)
    (hm : ts.is_mintable = true) (hpr : priceTooHigh pr = false) :
    nft_set_series_price c ts.creator_id 1 bt sid pr =
      .ok (snapshotAfter (repricedState c sid ts pr) bt sid, pr) := by
  simp only [nft_set_series_price, hser]
  rw [if_neg (by simp)]
  rw [if_neg (by simp)]
  rw [if_neg (by simp [hm])]
  rw [if_neg (by simp [hpr])]
  rfl

/-- Re-pricing a series while a scheduled fee change has activated snapshots
the new fee. -/
theorem reprice_snapshot (cm : Contract) (t3 : Nat) (sid : TokenSeriesId)
    (ts2 : TokenSeries) (P2 : Option Nat) (nf : Nat) (T : TimestampSec)
    (hser : alGet cm.token_series_by_id sid = some ts2)
    (hm : ts2.is_mintable = true) (hP2 : priceTooHigh P2 = false)
    (hnext : cm.transaction_fee.next_fee = some nf)
    (hstart : cm.transaction_fee.start_time = some T)
    (ht3 : T ≤ to_sec t3) :
    ∃ c4, nft_set_series_price cm ts2.creator_id 1 t3 sid P2 = .ok (c4, P2) ∧
      alGet c4.market_data_transaction_fee sid = some nf := by
  refine ⟨_, set_price_ok cm t3 sid P2 ts2 hser hm hP2, ?_⟩
  rw [alGet_snapshotAfter_self]
  rw [settledFee_fire (repricedState cm sid ts2 P2) t3 nf T hnext hstart ht3]

/-- The series record the C4 scenario creates. -/
def C4ts (c0 : Contract) (md : TokenMetadata) (P : Nat) : TokenSeries :=
  { metadata := md, creator_id := c0.owner_id, tokens := [],
    price := some P, is_mintable := true, royalty := [] }

/-- The state after scheduling the C4 fee change. -/
def C4c1 (c0 : Contract) (nf : Nat) (T : TimestampSec) : Contract :=
  { c0 with transaction_fee :=
      { c0.transaction_fee with next_fee := some nf, start_time := some T } }

/-- The identifier the C4 creation step assigns. -/
def C4sid (c0 : Contract) : TokenSeriesId :=
  toString (c0.token_series_by_id.length + 1)

/-- The state after the C4 creation step (series inserted, old fee
snapshotted). -/
def C4c2 (c0 : Contract) (nf : Nat) (T : TimestampSec) (md : TokenMetadata)
    (P : Nat) (t1 : Nat) : Contract :=
  snapshotAfter (createdState (C4c1 c0 nf T) md P) t1 (C4sid c0)

/-- The creation step's returned record. -/
def C4js (c0 : Contract) (nf : Nat) (T : TimestampSec) (md : TokenMetadata)
    (P : Nat) (t1 : Nat) : TokenSeriesJson :=
  { token_series_id := C4sid c0, metadata := md, creator_id := c0.owner_id,
    royalty := [],
    transaction_fee := some (settledFee (createdState (C4c1 c0 nf T) md P) t1) }

/-- C4c2 with the creation-time settle evaluated (it was a no-op). -/
def C4mid2 (c0 : Contract) (nf : Nat) (T : TimestampSec) (md : TokenMetadata)
    (P : Nat) : Contract :=
  let cmid := createdState (C4c1 c0 nf T) md P
  { cmid with market_data_transaction_fee :=
      (alInsert cmid.market_data_transaction_fee (C4sid c0)
        cmid.transaction_fee.current_fee) }

/-- The C4 purchase outcome. -/
def C4res (c0 : Contract) (nf : Nat) (T : TimestampSec) (md : TokenMetadata)
    (P : Nat) (t2 : Nat) (recv : AccountId) : BuyResult :=
  { state := mintState (C4mid2 c0 nf T md P) t2 (C4sid c0) recv (C4ts c0 md P),
    token_id := { series := C4sid c0, edition := 1 },
    creator_transfer := (c0.owner_id, P - P * c0.transaction_fee.current_fee / 10000),
    treasury_transfer :=
      if P * c0.transaction_fee.current_fee / 10000 ≠ 0 then
        some (c0.treasury_id, P * c0.transaction_fee.current_fee / 10000)
      else none }

/-- C4: schedule a fee change to nf effective at T; create (and thereby
price) a series while to_sec is still below T — the snapshot records the OLD
current fee; a purchase at any time at or past T still settles against that
old snapshot (creator gets price minus old-fee portion, treasury the old-fee
portion) even though the settled live global fee is already nf; re-pricing
the series at or past T re-snapshots it to nf. -/
theorem C4_fee_snapshot_locks_series (c0 : Contract) (t0 t1 t2 t3 : Nat)
    (nf : Nat) (T : TimestampSec) (md : TokenMetadata) (P dep : Nat)
    (buyer recv : AccountId) (P2 : Option Nat)
    (hnf : nf < 10000) (ht0 : to_sec t0 < T) (ht1 : to_sec t1 < T)
    (ht2 : T ≤ to_sec t2) (ht3 : T ≤ to_sec t3)
    (htitle : md.title.isSome) (hP : P < MAX_PRICE) (hdep : P ≤ dep)
    (hcap1 : 1 < md.copies.getD U64_MAX)
    (hdup : alGet c0.token_series_by_id
      (toString (c0.token_series_by_id.length + 1)) = none)
    (hP2 : priceTooHigh P2 = false) :
    ∃ c1 c2 js, set_transaction_fee c0 c0.owner_id 1 t0 nf (some T) = .ok c1 ∧
      nft_create_series c1 c1.owner_id t1 none md (some P) none = .ok (c2, js) ∧
      alGet c2.market_data_transaction_fee js.token_series_id =
        some c0.transaction_fee.current_fee ∧
      (calculate_current_transaction_fee c2 t2).1 = nf ∧
      ∃ res, nft_buy c2 buyer dep t2 js.token_series_id recv = .ok res ∧
        res.creator_transfer.2 = P - P * c0.transaction_fee.current_fee / 10000 ∧
        (P * c0.transaction_fee.current_fee / 10000 ≠ 0 →
          res.treasury_transfer =
            some (c0.treasury_id, P * c0.transaction_fee.current_fee / 10000)) ∧
        ∃ c4, nft_set_series_price res.state c0.owner_id 1 t3
            js.token_series_id P2 = .ok (c4, P2) ∧
          alGet c4.market_data_transaction_fee js.token_series_id = some nf := by
  have hnoop := settle_noop (createdState (C4c1 c0 nf T) md P) t1 nf T rfl rfl ht1
  have hcond : ¬ ((C4ts c0 md P).tokens.length + 1 ≥
      (C4ts c0 md P).metadata.copies.getD U64_MAX) := by
    simpa [C4ts] using Nat.not_le.mpr hcap1
  have hms : mintedSeries (C4sid c0) (C4ts c0 md P) =
      { C4ts c0 md P with tokens := [{ series := C4sid c0, edition := 1 }] } := by
    simp only [mintedSeries]
    rw [if_neg hcond]
    simp [C4ts]
  refine ⟨C4c1 c0 nf T, C4c2 c0 nf T md P t1, C4js c0 nf T md P t1,
    ?_, ?_, ?_, ?_, ?_⟩
  · unfold C4c1
    simp [set_transaction_fee, hnf, ht0]
  · rw [create_ok (C4c1 c0 nf T) t1 md P hdup htitle hP]
    rfl
  · show alGet (snapshotAfter (createdState (C4c1 c0 nf T) md P) t1
        (C4sid c0)).market_data_transaction_fee (C4sid c0) =
      some c0.transaction_fee.current_fee
    rw [alGet_snapshotAfter_self]
    rw [settledFee_noop (createdState (C4c1 c0 nf T) md P) t1 nf T rfl rfl ht1]
    rfl
  · unfold C4c2
    rw [snapshotAfter_eq _ _ _ _ _ hnoop]
    exact calc_fst_fire _ t2 nf T rfl rfl ht2
  · refine ⟨C4res c0 nf T md P t2 recv, ?_, rfl, ?_, ?_⟩
    · unfold C4c2
      rw [snapshotAfter_eq _ _ _ _ _ hnoop]
      exact buy_ok (C4mid2 c0 nf T md P) buyer dep t2 (C4sid c0) recv
        (C4ts c0 md P) P c0.transaction_fee.current_fee
        (alGet_alInsert_self _ _ _) rfl hdep rfl
        (Nat.lt_trans Nat.zero_lt_one hcap1) (alGet_alInsert_self _ _ _)
    · intro hnz
      exact if_pos hnz
    · have hser3 : alGet (C4res c0 nf T md P t2 recv).state.token_series_by_id
          (C4js c0 nf T md P t1).token_series_id =
          some { C4ts c0 md P with tokens := [{ series := C4sid c0, edition := 1 }] } := by
        show alGet (mintState (C4mid2 c0 nf T md P) t2 (C4sid c0) recv
            (C4ts c0 md P)).token_series_by_id (C4sid c0) =
          some { C4ts c0 md P with tokens := [{ series := C4sid c0, edition := 1 }] }
        rw [mintState_token_series_by_id]
        rw [hms]
        exact alGet_alInsert_self _ _ _
      exact reprice_snapshot _ t3 _
        { C4ts c0 md P with tokens := [{ series := C4sid c0, edition := 1 }] }
        P2 nf T hser3 rfl hP2 rfl rfl ht3

/-! ## Registry well-formedness (claims C1, C6, C9) -/

/-- The per-series invariant: the minted count respects the copies cap (and a
full capped series is no longer mintable, for caps of at least one), and
every minted token of the series carries a 1-based edition number bounded by
the minted count. -/
def SeriesWf (ts : TokenSeries) : Prop :=
  (∀ cap, ts.metadata.copies = some cap →
    ts.tokens.length ≤ cap ∧
    (ts.tokens.length = cap → 1 ≤ cap → ts.is_mintable = false)) ∧
  (∀ t ∈ ts.tokens, 1 ≤ t.edition ∧ t.edition ≤ ts.tokens.length)

/-- The registry invariant: pairwise-distinct series identifiers, and every
series record well-formed. -/
def RegistryWf (c : Contract) : Prop :=
  ((c.token_series_by_id.map Prod.fst).Nodup) ∧
  (∀ sid ts, alGet c.token_series_by_id sid = some ts → SeriesWf ts)

theorem SeriesWf_fresh (md : TokenMetadata) (cr : AccountId) (pr : Option Nat)
    (roy : List (AccountId × Nat)) :
    SeriesWf { metadata := md, creator_id := cr, tokens := [], price := pr,
               is_mintable := true, royalty := roy } := by
  constructor
  · intro cap hcap
    exact ⟨Nat.zero_le cap, fun h0 h1 => absurd (h0 ▸ h1) (by simp)⟩
  · intro t ht
    simp at ht

theorem RegistryWf_alInsert (c c2 : Contract) (sid : TokenSeriesId)
    (ts : TokenSeries) (hwf : RegistryWf c) (hts : SeriesWf ts)
    (h2 : c2.token_series_by_id = alInsert c.token_series_by_id sid ts) :
    RegistryWf c2 := by
  rw [RegistryWf, h2]
  refine ⟨nodup_keys_alInsert _ _ _ hwf.1, ?_⟩
  intro sid2 ts2 hget
  by_cases hs : sid2 = sid
  · subst hs
    rw [alGet_alInsert_self] at hget
    cases hget
    exact hts
  · rw [alGet_alInsert_ne _ _ _ _ hs] at hget
    exact hwf.2 sid2 ts2 hget

/-- The minted series record: the fresh edition is appended (it is genuinely
fresh thanks to the edition bound), the count grows by one, and the record
stays well-formed. -/
theorem mintedSeries_wf (sid : TokenSeriesId) (ts : TokenSeries)
    (hwf : SeriesWf ts)
    (hcap : ts.tokens.length < ts.metadata.copies.getD U64_MAX) :
    (mintedSeries sid ts).tokens =
      ts.tokens ++ [{ series := sid, edition := ts.tokens.length + 1 }] ∧
    (mintedSeries sid ts).metadata = ts.metadata ∧
    SeriesWf (mintedSeries sid ts) := by
  have hfresh : ({ series := sid, edition := ts.tokens.length + 1 } : TokenId) ∉
      ts.tokens := by
    intro hmem
    have := (hwf.2 _ hmem).2
    simp at this
  have htok : (mintedSeries sid ts).tokens =
      ts.tokens ++ [{ series := sid, edition := ts.tokens.length + 1 }] := by
    simp only [mintedSeries]
    by_cases hflip : ts.tokens.length + 1 ≥ ts.metadata.copies.getD U64_MAX
    · rw [if_pos hflip, if_neg hfresh]
    · rw [if_neg hflip, if_neg hfresh]
  have hmd : (mintedSeries sid ts).metadata = ts.metadata := by
    simp only [mintedSeries]
    by_cases hflip : ts.tokens.length + 1 ≥ ts.metadata.copies.getD U64_MAX
    · rw [if_pos hflip]
    · rw [if_neg hflip]
  have hmint : ∀ cap, ts.metadata.copies = some cap →
      ts.tokens.length + 1 = cap → (mintedSeries sid ts).is_mintable = false := by
    intro cap hcap2 heq
    simp only [mintedSeries]
    have : ts.tokens.length + 1 ≥ ts.metadata.copies.getD U64_MAX := by
      rw [hcap2]
      simp [heq]
    rw [if_pos this]
  refine ⟨htok, hmd, ?_, ?_⟩
  · intro cap hcap2
    rw [hmd] at hcap2
    have hlt : ts.tokens.length < cap := by
      have := hcap
      rw [hcap2] at this
      simpa using this
    constructor
    · rw [htok]
      simp
      omega
    · intro hful _
      rw [htok] at hful
      simp at hful
      exact hmint cap hcap2 (by omega)
  · intro t ht
    rw [htok] at ht
    rw [htok]
    simp only [List.mem_append, List.mem_singleton] at ht
    rcases ht with ht | ht
    · have := hwf.2 t ht
      simp
      omega
    · subst ht
      simp

theorem RegistryWf_of_eq (c c2 : Contract)
    (h : c2.token_series_by_id = c.token_series_by_id) (hwf : RegistryWf c) :
    RegistryWf c2 := by
  rw [RegistryWf, h]
  exact hwf

theorem calc_tsb (c : Contract) (bt : Nat) :
    (calculate_current_transaction_fee c bt).2.token_series_by_id =
      c.token_series_by_id := by
  unfold calculate_current_transaction_fee
  split
  · split <;> rfl
  · rfl

theorem calc_market_tsb (c : Contract) (sid : TokenSeriesId) (bt : Nat) :
    (calculate_market_data_transaction_fee c sid bt).2.token_series_by_id =
      c.token_series_by_id := by
  unfold calculate_market_data_transaction_fee
  split
  · rfl
  · exact calc_tsb c bt

theorem snapshotAfter_tsb (c2 : Contract) (bt : Nat) (sid : TokenSeriesId) :
    (snapshotAfter c2 bt sid).token_series_by_id = c2.token_series_by_id :=
  calc_tsb c2 bt

theorem set_transaction_fee_tsb (c : Contract) (p : AccountId) (d bt nf : Nat)
    (st : Option TimestampSec) (c2 : Contract)
    (h : set_transaction_fee c p d bt nf st = .ok c2) :
    c2.token_series_by_id = c.token_series_by_id := by
  unfold set_transaction_fee at h
  repeat' split at h
  all_goals first
    | (simp only [Except.ok.injEq] at h; subst h; rfl)
    | simp at h

theorem set_treasury_tsb (c : Contract) (p : AccountId) (d : Nat)
    (tr : AccountId) (c2 : Contract) (h : set_treasury c p d tr = .ok c2) :
    c2.token_series_by_id = c.token_series_by_id := by
  unfold set_treasury at h
  repeat' split at h
  all_goals first
    | (simp only [Except.ok.injEq] at h; subst h; rfl)
    | simp at h

theorem set_balance_mint_og_tsb (c : Contract) (p : AccountId) (d b : Nat)
    (c2 : Contract) (h : set_balance_mint_og c p d b = .ok c2) :
    c2.token_series_by_id = c.token_series_by_id := by
  unfold set_balance_mint_og at h
  repeat' split at h
  all_goals first
    | (simp only [Except.ok.injEq] at h; subst h; rfl)
    | simp at h

theorem add_og_account_id_tsb (c : Contract) (p : AccountId) (d : Nat)
    (a : AccountId) (b : Option Nat) (c2 : Contract)
    (h : add_og_account_id c p d a b = .ok c2) :
    c2.token_series_by_id = c.token_series_by_id := by
  unfold add_og_account_id at h
  repeat' split at h
  all_goals first
    | (simp only [Except.ok.injEq] at h; subst h; rfl)
    | simp at h

theorem decress_balance_og_tsb (c : Contract) (p : AccountId) (d : Nat)
    (a : AccountId) (b : Nat) (c2 : Contract)
    (h : decress_balance_og c p d a b = .ok c2) :
    c2.token_series_by_id = c.token_series_by_id := by
  unfold decress_balance_og at h
  repeat' split at h
  all_goals first
    | (simp only [Except.ok.injEq] at h; subst h; rfl)
    | simp at h

theorem remove_og_account_id_tsb (c : Contract) (p : AccountId) (d : Nat)
    (a : AccountId) (c2 : Contract)
    (h : remove_og_account_id c p d a = .ok c2) :
    c2.token_series_by_id = c.token_series_by_id := by
  unfold remove_og_account_id at h
  repeat' split at h
  all_goals first
    | (simp only [Except.ok.injEq] at h; subst h; rfl)
    | simp at h

theorem nft_burn_tsb (c : Contract) (p : AccountId) (d : Nat) (tid : TokenId)
    (c2 : Contract) (h : nft_burn c p d tid = .ok c2) :
    c2.token_series_by_id = c.token_series_by_id := by
  unfold nft_burn at h
  split at h
  · simp at h
  · split at h
    · simp at h
    · split at h
      · simp at h
      · rename_i owner hop hown
        dsimp only at h
        rcases htp : alGet c.tokens_per_owner owner with _ | toks
        · rw [htp] at h
          simp at h
        · simp only [htp, Except.ok.injEq] at h
          subst h
          rfl

/-- Full effect of a successful burn: the series registry is untouched while
the ownership record, the token metadata and the approval state of the burned
token are removed. -/
theorem nft_burn_inv (c : Contract) (p : AccountId) (d : Nat) (tid : TokenId)
    (c2 : Contract) (h : nft_burn c p d tid = .ok c2) :
    c2.token_series_by_id = c.token_series_by_id ∧
    alGet c2.owner_by_id tid = none ∧
    alGet c2.token_metadata_by_id tid = none ∧
    alGet c2.approvals_by_id tid = none ∧
    alGet c2.next_approval_id_by_id tid = none := by
  unfold nft_burn at h
  split at h
  · simp at h
  · split at h
    · simp at h
    · split at h
      · simp at h
      · rename_i owner hop hown
        dsimp only at h
        rcases htp : alGet c.tokens_per_owner owner with _ | toks
        · rw [htp] at h
          simp at h
        · simp only [htp, Except.ok.injEq] at h
          subst h
          refine ⟨rfl, ?_, ?_, ?_, ?_⟩ <;> exact alGet_alRemove_self _ _

/-- Successful nft_mint_creator is exactly a successful _nft_mint_series. -/
theorem nft_mint_creator_to_mint (c : Contract) (p : AccountId) (bt : Nat)
    (sid : TokenSeriesId) (r : AccountId) (out : Contract × TokenId)
    (h : nft_mint_creator c p bt sid r = .ok out) :
    _nft_mint_series c bt sid r = .ok out := by
  unfold nft_mint_creator at h
  rcases hs : alGet c.token_series_by_id sid with _ | ts <;> simp only [hs] at h
  · simp at h
  · split at h
    · simp at h
    · exact h

/-- A successful purchase contains a successful _nft_mint_series, and the final
state only differs from the mint state in the fee bookkeeping: the series
registry agrees. -/
theorem nft_buy_to_mint (c : Contract) (p : AccountId) (dep bt : Nat)
    (sid : TokenSeriesId) (r : AccountId) (res : BuyResult)
    (h : nft_buy c p dep bt sid r = .ok res) :
    ∃ cm, _nft_mint_series c bt sid r = .ok (cm, res.token_id) ∧
      res.state.token_series_by_id = cm.token_series_by_id := by
  unfold nft_buy at h
  rcases hs : alGet c.token_series_by_id sid with _ | ts <;> simp only [hs] at h
  · simp at h
  · rcases hp : ts.price with _ | price <;> simp only [hp] at h
    · simp at h
    · split at h
      · simp at h
      · rcases hm : _nft_mint_series c bt sid r with e | cm2 <;>
          simp only [hm] at h
        · simp at h
        · obtain ⟨cm, tid⟩ := cm2
          simp only [Except.ok.injEq] at h
          subst h
          exact ⟨cm, rfl, calc_market_tsb cm sid bt⟩

/-- A successful OG mint contains a successful _nft_mint_series; the trailing
balance decrement leaves the series registry alone. -/
theorem nft_mint_to_mint (c : Contract) (p : AccountId) (bt : Nat)
    (sid : TokenSeriesId) (r : AccountId) (out : Contract × TokenId)
    (h : nft_mint c p bt sid r = .ok out) :
    ∃ cm, _nft_mint_series c bt sid r = .ok (cm, out.2) ∧
      out.1.token_series_by_id = cm.token_series_by_id := by
  unfold nft_mint at h
  split at h
  · simp at h
  · dsimp only at h
    split at h
    · simp at h
    · split at h
      · simp at h
      · rcases hm : _nft_mint_series c bt sid r with e | cm2 <;>
          simp only [hm] at h
        · simp at h
        · obtain ⟨cm, tid⟩ := cm2
          rcases hd : decress_balance_og cm p 0 p
              ((alGet c.account_id_og p).getD 0) with e | c3 <;>
            simp only [hd] at h
          · simp at h
          · simp only [Except.ok.injEq] at h
            subst h
            exact ⟨cm, rfl,
              decress_balance_og_tsb cm p 0 p _ c3 hd⟩

/-- A successful draw-and-mint is a successful _nft_mint_series from a state
with the same series registry (only the raffle pool was shrunk first). -/
theorem draw_and_mint_to_mint (c : Contract) (p : AccountId) (bt seed : Nat)
    (r : AccountId) (out : Contract × TokenId)
    (h : draw_and_mint c p bt seed r = .ok out) :
    ∃ c2 sid2, c2.token_series_by_id = c.token_series_by_id ∧
      _nft_mint_series c2 bt sid2 r = .ok out := by
  unfold draw_and_mint at h
  rcases hd : raffle_draw c.raffle seed with e | pr <;> simp only [hd] at h
  · simp at h
  · obtain ⟨idx, pool2⟩ := pr
    split at h
    · simp at h
    · exact ⟨{ c with raffle := pool2 }, toString (idx + 1), rfl, h⟩

/-- A successful mint-and-approve contains a successful _nft_mint_series (to
the creator); the appended approval state leaves the series registry alone. -/
theorem nft_mint_and_approve_to_mint (c : Contract) (p : AccountId) (bt : Nat)
    (sid : TokenSeriesId) (a : AccountId) (out : Contract × TokenId)
    (h : nft_mint_and_approve c p bt sid a = .ok out) :
    ∃ cm r2, _nft_mint_series c bt sid r2 = .ok (cm, out.2) ∧
      out.1.token_series_by_id = cm.token_series_by_id := by
  unfold nft_mint_and_approve at h
  rcases hs : alGet c.token_series_by_id sid with _ | ts <;> simp only [hs] at h
  · simp at h
  · split at h
    · simp at h
    · rcases hm : _nft_mint_series c bt sid ts.creator_id with e | cm2 <;>
        simp only [hm] at h
      · simp at h
      · obtain ⟨cm, tid⟩ := cm2
        simp only [Except.ok.injEq] at h
        subst h
        exact ⟨cm, ts.creator_id, hm.trans rfl, rfl⟩

/-- Inversion of a successful nft_set_series_non_mintable: the registry gains
the same series with the mintable flag lowered. -/
theorem nft_set_series_non_mintable_inv (c : Contract) (p : AccountId)
    (d : Nat) (sid : TokenSeriesId) (c2 : Contract)
    (h : nft_set_series_non_mintable c p d sid = .ok c2) :
    ∃ ts, alGet c.token_series_by_id sid = some ts ∧
      c2.token_series_by_id =
        alInsert c.token_series_by_id sid { ts with is_mintable := false } := by
  unfold nft_set_series_non_mintable at h
  split at h
  · simp at h
  · rcases hs : alGet c.token_series_by_id sid with _ | ts <;> simp only [hs] at h
    · simp at h
    · split at h
      · simp at h
      · split at h
        · simp at h
        · split at h
          · simp at h
          · simp only [Except.ok.injEq] at h
            subst h
            exact ⟨ts, rfl, rfl⟩

/-- The series record after a successful supply decrease to the new cap n. -/
def decreasedSeries (ts : TokenSeries) (n : Nat) : TokenSeries :=
  let ts2 := if n = ts.tokens.length then { ts with is_mintable := false } else ts
  { ts2 with metadata := { ts2.metadata with copies := some n } }

theorem decreasedSeries_wf (ts : TokenSeries) (n : Nat) (hwf : SeriesWf ts)
    (hge : ts.tokens.length ≤ n) : SeriesWf (decreasedSeries ts n) := by
  have htok : (decreasedSeries ts n).tokens = ts.tokens := by
    unfold decreasedSeries
    split <;> rfl
  have hcop : (decreasedSeries ts n).metadata.copies = some n := by
    unfold decreasedSeries
    split <;> rfl
  have hmint : n = ts.tokens.length → (decreasedSeries ts n).is_mintable = false := by
    intro he
    unfold decreasedSeries
    simp only [if_pos he]
  refine ⟨?_, ?_⟩
  · intro cap hcap
    rw [hcop] at hcap
    cases hcap
    rw [htok]
    exact ⟨hge, fun hful _ => hmint hful.symm⟩
  · intro t ht
    rw [htok] at ht ⊢
    exact hwf.2 t ht

/-- Inversion of a successful nft_decrease_series_copies: the registry gains
the same series with a lowered cap (still at least the minted count). -/
theorem nft_decrease_series_copies_inv (c : Contract) (p : AccountId) (d : Nat)
    (sid : TokenSeriesId) (dec : Nat) (c2 : Contract) (out : Nat)
    (h : nft_decrease_series_copies c p d sid dec = .ok (c2, out)) :
    ∃ ts copies, alGet c.token_series_by_id sid = some ts ∧
      ts.metadata.copies = some copies ∧
      ts.tokens.length ≤ copies - dec ∧
      c2.token_series_by_id =
        alInsert c.token_series_by_id sid (decreasedSeries ts (copies - dec)) := by
  unfold nft_decrease_series_copies at h
  split at h
  · simp at h
  · rcases hs : alGet c.token_series_by_id sid with _ | ts <;> simp only [hs] at h
    · simp at h
    · split at h
      · simp at h
      · rcases hcop : ts.metadata.copies with _ | copies <;> simp only [hcop] at h
        · simp at h
        · split at h
          · simp at h
          · split at h
            · simp at h
            · rename_i hnlt hge
              simp only [Except.ok.injEq, Prod.mk.injEq] at h
              obtain ⟨h1, h2⟩ := h
              refine ⟨ts, copies, rfl, hcop, by omega, ?_⟩
              rw [← h1]
              rfl

/-- Inversion of a successful nft_set_series_price: the registry gains the
same series with only the price replaced (plus fee-snapshot bookkeeping that
leaves the registry alone). -/
theorem nft_set_series_price_inv (c : Contract) (p : AccountId) (d bt : Nat)
    (sid : TokenSeriesId) (pr : Option Nat) (c2 : Contract) (out : Option Nat)
    (h : nft_set_series_price c p d bt sid pr = .ok (c2, out)) :
    ∃ ts, alGet c.token_series_by_id sid = some ts ∧
      c2.token_series_by_id =
        alInsert c.token_series_by_id sid { ts with price := pr } := by
  unfold nft_set_series_price at h
  split at h
  · simp at h
  · rcases hs : alGet c.token_series_by_id sid with _ | ts <;> simp only [hs] at h
    · simp at h
    · split at h
      · simp at h
      · split at h
        · simp at h
        · split at h
          · simp at h
          · simp only [Except.ok.injEq, Prod.mk.injEq] at h
            obtain ⟨h1, h2⟩ := h
            refine ⟨ts, rfl, ?_⟩
            rw [← h1]
            let cmid : Contract := { c with token_series_by_id := alInsert c.token_series_by_id sid { ts with price := pr } }
            exact calc_tsb cmid bt

/-- Inversion of a successful shared creation body: the identifier was free,
it is the one reported, and the registry gains exactly the fresh record. -/
theorem createSeriesChecked_inv (c : Contract) (caller : AccountId) (bt : Nat)
    (sid : TokenSeriesId) (cr : Option AccountId) (md : TokenMetadata)
    (pr : Option Nat) (roy : Option (List (AccountId × Nat))) (c2 : Contract)
    (js : TokenSeriesJson)
    (h : createSeriesChecked c caller bt sid cr md pr roy = .ok (c2, js)) :
    alGet c.token_series_by_id sid = none ∧
    js.token_series_id = sid ∧
    c2.token_series_by_id = alInsert c.token_series_by_id sid
      { metadata := md, creator_id := caller, tokens := [], price := pr,
        is_mintable := true, royalty := roy.getD [] } := by
  unfold createSeriesChecked at h
  split at h
  · simp at h
  · split at h
    · simp at h
    · split at h
      · simp at h
      · rename_i hdup
        split at h
        · simp at h
        · dsimp only at h
          split at h
          · simp at h
          · split at h
            · simp at h
            · split at h
              · simp at h
              · split at h
                · simp at h
                · simp only [Except.ok.injEq, Prod.mk.injEq] at h
                  obtain ⟨h1, h2⟩ := h
                  refine ⟨?_, ?_, ?_⟩
                  · simpa using hdup
                  · rw [← h2]
                  · rw [← h1]
                    let tsf : TokenSeries := { metadata := md, creator_id := caller, tokens := [], price := pr, is_mintable := true, royalty := roy.getD [] }
                    let cmid : Contract := { c with token_series_by_id := alInsert c.token_series_by_id sid tsf }
                    exact calc_tsb cmid bt

theorem SeriesWf_set_false (ts : TokenSeries) (hwf : SeriesWf ts) :
    SeriesWf { ts with is_mintable := false } := by
  refine ⟨fun cap hcap => ⟨(hwf.1 cap hcap).1, fun _ _ => rfl⟩, ?_⟩
  exact hwf.2

theorem SeriesWf_set_price (ts : TokenSeries) (pr : Option Nat)
    (hwf : SeriesWf ts) : SeriesWf { ts with price := pr } :=
  hwf

/-- The registry facts a single operation step establishes: well-formedness is
preserved, present series stay present, and any identifier the step reports
as created was absent before and is present after. -/
def StepFacts (c c2 : Contract) (created : List TokenSeriesId) : Prop :=
  RegistryWf c2 ∧
  (∀ sid, (alGet c.token_series_by_id sid).isSome →
    (alGet c2.token_series_by_id sid).isSome) ∧
  created.Nodup ∧
  (∀ sid ∈ created,
    alGet c.token_series_by_id sid = none ∧
    (alGet c2.token_series_by_id sid).isSome)

theorem stepFacts_same (c : Contract) (hwf : RegistryWf c) : StepFacts c c [] :=
  ⟨hwf, fun _ hs => hs, List.nodup_nil, by simp⟩

theorem stepFacts_tsb_eq (c c2 : Contract) (hwf : RegistryWf c)
    (h : c2.token_series_by_id = c.token_series_by_id) : StepFacts c c2 [] :=
  ⟨RegistryWf_of_eq c c2 h hwf, fun s hs => by rwa [h], List.nodup_nil, by simp⟩

theorem stepFacts_insert_existing (c c2 : Contract) (sid : TokenSeriesId)
    (ts ts2 : TokenSeries) (hs : alGet c.token_series_by_id sid = some ts)
    (hwf2 : SeriesWf ts → SeriesWf ts2)
    (h2 : c2.token_series_by_id = alInsert c.token_series_by_id sid ts2)
    (hwf : RegistryWf c) : StepFacts c c2 [] := by
  refine ⟨RegistryWf_alInsert c c2 sid ts2 hwf (hwf2 (hwf.2 sid ts hs)) h2,
    fun s2 hs2 => ?_, List.nodup_nil, by simp⟩
  rw [h2]
  exact alGet_isSome_alInsert _ _ _ _ hs2

theorem stepFacts_mint (c cm : Contract) (bt : Nat) (sid : TokenSeriesId)
    (r : AccountId) (tid : TokenId)
    (h : _nft_mint_series c bt sid r = .ok (cm, tid)) (hwf : RegistryWf c) :
    StepFacts c cm [] := by
  obtain ⟨ts, hs, hm, hcap, hstate, _⟩ := mint_inv c bt sid r cm tid h
  subst hstate
  exact stepFacts_insert_existing c _ sid ts (mintedSeries sid ts) hs
    (fun hw => (mintedSeries_wf sid ts hw hcap).2.2)
    (mintState_token_series_by_id c bt sid r ts) hwf

/-- Extend a step by a further state change that leaves the registry alone. -/
theorem stepFacts_trans_eq (c c2 c3 : Contract) (hf : StepFacts c c2 [])
    (h : c3.token_series_by_id = c2.token_series_by_id) : StepFacts c c3 [] :=
  ⟨RegistryWf_of_eq c2 c3 h hf.1, fun s hs => by rw [h]; exact hf.2.1 s hs,
    List.nodup_nil, by simp⟩

/-- Precompose a step with a state change that leaves the registry alone. -/
theorem stepFacts_pre_eq (c c2 c3 : Contract) (created : List TokenSeriesId)
    (h : c2.token_series_by_id = c.token_series_by_id)
    (hf : StepFacts c2 c3 created) : StepFacts c c3 created :=
  ⟨hf.1, fun s hs => hf.2.1 s (by rwa [h]), hf.2.2.1,
    fun sid hsid => ⟨by rw [← h]; exact (hf.2.2.2 sid hsid).1,
      (hf.2.2.2 sid hsid).2⟩⟩

theorem stepFacts_create (c : Contract) (caller : AccountId) (bt : Nat)
    (sid : TokenSeriesId) (cr : Option AccountId) (md : TokenMetadata)
    (pr : Option Nat) (roy : Option (List (AccountId × Nat))) (c2 : Contract)
    (js : TokenSeriesJson)
    (h : createSeriesChecked c caller bt sid cr md pr roy = .ok (c2, js))
    (hwf : RegistryWf c) : StepFacts c c2 [js.token_series_id] := by
  obtain ⟨hnone, hjs, h2⟩ :=
    createSeriesChecked_inv c caller bt sid cr md pr roy c2 js h
  refine ⟨RegistryWf_alInsert c c2 sid _ hwf
      (SeriesWf_fresh md caller pr (roy.getD [])) h2,
    fun s hs => by rw [h2]; exact alGet_isSome_alInsert _ _ _ _ hs,
    List.nodup_singleton _, ?_⟩
  intro s hsmem
  rw [List.mem_singleton] at hsmem
  subst hsmem
  rw [hjs]
  refine ⟨hnone, ?_⟩
  rw [h2, alGet_alInsert_self]
  rfl

/-- Every operation preserves registry well-formedness and the presence of
existing series, and reports only identifiers that were genuinely fresh. -/
theorem applyOp_inv (c : Contract) (op : Op) (hwf : RegistryWf c) :
    StepFacts c (applyOp c op).1 (applyOp c op).2 := by
  cases op with
  | setTransactionFee p d bt nf st =>
    rcases hr : set_transaction_fee c p d bt nf st with e | c2 <;>
      simp only [applyOp, hr, Except.toOption, Option.getD_some, Option.getD_none]
    · exact stepFacts_same c hwf
    · exact stepFacts_tsb_eq c c2 hwf (set_transaction_fee_tsb c p d bt nf st c2 hr)
  | setTreasury p d t =>
    rcases hr : set_treasury c p d t with e | c2 <;>
      simp only [applyOp, hr, Except.toOption, Option.getD_some, Option.getD_none]
    · exact stepFacts_same c hwf
    · exact stepFacts_tsb_eq c c2 hwf (set_treasury_tsb c p d t c2 hr)
  | setBalanceMintOg p d b =>
    rcases hr : set_balance_mint_og c p d b with e | c2 <;>
      simp only [applyOp, hr, Except.toOption, Option.getD_some, Option.getD_none]
    · exact stepFacts_same c hwf
    · exact stepFacts_tsb_eq c c2 hwf (set_balance_mint_og_tsb c p d b c2 hr)
  | addOgAccountId p d a b =>
    rcases hr : add_og_account_id c p d a b with e | c2 <;>
      simp only [applyOp, hr, Except.toOption, Option.getD_some, Option.getD_none]
    · exact stepFacts_same c hwf
    · exact stepFacts_tsb_eq c c2 hwf (add_og_account_id_tsb c p d a b c2 hr)
  | decressBalanceOg p d a b =>
    rcases hr : decress_balance_og c p d a b with e | c2 <;>
      simp only [applyOp, hr, Except.toOption, Option.getD_some, Option.getD_none]
    · exact stepFacts_same c hwf
    · exact stepFacts_tsb_eq c c2 hwf (decress_balance_og_tsb c p d a b c2 hr)
  | removeOgAccountId p d a =>
    rcases hr : remove_og_account_id c p d a with e | c2 <;>
      simp only [applyOp, hr, Except.toOption, Option.getD_some, Option.getD_none]
    · exact stepFacts_same c hwf
    · exact stepFacts_tsb_eq c c2 hwf (remove_og_account_id_tsb c p d a c2 hr)
  | createSeries p bt cr md prc roy =>
    rcases hr : nft_create_series c p bt cr md prc roy with e | pr2 <;>
      simp only [applyOp, hr]
    · exact stepFacts_same c hwf
    · obtain ⟨c2, js⟩ := pr2
      exact stepFacts_create c p bt _ cr md prc roy c2 js hr hwf
  | createSeriesCustom sid p bt cr md prc roy =>
    rcases hr : nft_create_series_custom c sid p bt cr md prc roy with e | pr2 <;>
      simp only [applyOp, hr]
    · exact stepFacts_same c hwf
    · obtain ⟨c2, js⟩ := pr2
      exact stepFacts_create c p bt sid cr md prc roy c2 js hr hwf
  | buy p d bt sid r =>
    rcases hr : nft_buy c p d bt sid r with e | res <;>
      simp only [applyOp, hr]
    · exact stepFacts_same c hwf
    · obtain ⟨cm, hm, heq⟩ := nft_buy_to_mint c p d bt sid r res hr
      exact stepFacts_trans_eq c cm res.state
        (stepFacts_mint c cm bt sid r res.token_id hm hwf) heq
  | mintCreator p bt sid r =>
    rcases hr : nft_mint_creator c p bt sid r with e | res <;>
      simp only [applyOp, hr]
    · exact stepFacts_same c hwf
    · exact stepFacts_mint c res.1 bt sid r res.2
        (nft_mint_creator_to_mint c p bt sid r res hr) hwf
  | ogMint p bt sid r =>
    rcases hr : nft_mint c p bt sid r with e | res <;>
      simp only [applyOp, hr]
    · exact stepFacts_same c hwf
    · obtain ⟨cm, hm, heq⟩ := nft_mint_to_mint c p bt sid r res hr
      exact stepFacts_trans_eq c cm res.1
        (stepFacts_mint c cm bt sid r res.2 hm hwf) heq
  | drawAndMint p bt seed r =>
    rcases hr : draw_and_mint c p bt seed r with e | res <;>
      simp only [applyOp, hr]
    · exact stepFacts_same c hwf
    · obtain ⟨c2, sid2, heq, hm⟩ := draw_and_mint_to_mint c p bt seed r res hr
      exact stepFacts_pre_eq c c2 res.1 [] heq
        (stepFacts_mint c2 res.1 bt sid2 r res.2 hm (RegistryWf_of_eq c c2 heq hwf))
  | mintAndApprove p bt sid a =>
    rcases hr : nft_mint_and_approve c p bt sid a with e | res <;>
      simp only [applyOp, hr]
    · exact stepFacts_same c hwf
    · obtain ⟨cm, r2, hm, heq⟩ := nft_mint_and_approve_to_mint c p bt sid a res hr
      exact stepFacts_trans_eq c cm res.1
        (stepFacts_mint c cm bt sid r2 res.2 hm hwf) heq
  | setSeriesNonMintable p d sid =>
    rcases hr : nft_set_series_non_mintable c p d sid with e | c2 <;>
      simp only [applyOp, hr, Except.toOption, Option.getD_some, Option.getD_none]
    · exact stepFacts_same c hwf
    · obtain ⟨ts, hs, h2⟩ := nft_set_series_non_mintable_inv c p d sid c2 hr
      exact stepFacts_insert_existing c c2 sid ts _ hs
        (SeriesWf_set_false ts) h2 hwf
  | decreaseSeriesCopies p d sid dec =>
    rcases hr : nft_decrease_series_copies c p d sid dec with e | res <;>
      simp only [applyOp, hr]
    · exact stepFacts_same c hwf
    · obtain ⟨res1, res2⟩ := res
      obtain ⟨ts, copies, hs, hcop, hge, h2⟩ :=
        nft_decrease_series_copies_inv c p d sid dec res1 res2 hr
      exact stepFacts_insert_existing c res1 sid ts _ hs
        (fun hw => decreasedSeries_wf ts _ hw hge) h2 hwf
  | setSeriesPrice p d bt sid prc =>
    rcases hr : nft_set_series_price c p d bt sid prc with e | res <;>
      simp only [applyOp, hr]
    · exact stepFacts_same c hwf
    · obtain ⟨res1, res2⟩ := res
      obtain ⟨ts, hs, h2⟩ := nft_set_series_price_inv c p d bt sid prc res1 res2 hr
      exact stepFacts_insert_existing c res1 sid ts _ hs
        (SeriesWf_set_price ts prc) h2 hwf
  | burn p d tid =>
    rcases hr : nft_burn c p d tid with e | c2 <;>
      simp only [applyOp, hr, Except.toOption, Option.getD_some, Option.getD_none]
    · exact stepFacts_same c hwf
    · exact stepFacts_tsb_eq c c2 hwf (nft_burn_tsb c p d tid c2 hr)
  | externalLedger ob md ap na tpo sb =>
    simp only [applyOp]
    exact stepFacts_tsb_eq c _ hwf rfl

theorem runTrace_cons_fst (c : Contract) (op : Op) (rest : List Op) :
    (runTrace c (op :: rest)).1 = (runTrace (applyOp c op).1 rest).1 := rfl

theorem runTrace_cons_snd (c : Contract) (op : Op) (rest : List Op) :
    (runTrace c (op :: rest)).2 =
      (applyOp c op).2 ++ (runTrace (applyOp c op).1 rest).2 := rfl

/-- The trace invariant: over any operation sequence from a well-formed
registry, the final registry is well-formed, present series stay present, the
collected creation identifiers are pairwise distinct, and each of them was
absent at the start and is present at the end. -/
theorem runTrace_inv (ops : List Op) (c : Contract) (hwf : RegistryWf c) :
    RegistryWf (runTrace c ops).1 ∧
    (∀ sid, (alGet c.token_series_by_id sid).isSome →
      (alGet (runTrace c ops).1.token_series_by_id sid).isSome) ∧
    (runTrace c ops).2.Nodup ∧
    (∀ sid ∈ (runTrace c ops).2,
      alGet c.token_series_by_id sid = none ∧
      (alGet (runTrace c ops).1.token_series_by_id sid).isSome) := by
  induction ops generalizing c with
  | nil =>
    exact ⟨hwf, fun _ hs => hs, List.nodup_nil, by simp [runTrace]⟩
  | cons op rest ih =>
    have hA := applyOp_inv c op hwf
    unfold StepFacts at hA
    obtain ⟨hwf1, hmono1, hnd1, hcr1⟩ := hA
    obtain ⟨hwf2, hmono2, hnd2, hcr2⟩ := ih (applyOp c op).1 hwf1
    rw [runTrace_cons_fst, runTrace_cons_snd]
    refine ⟨hwf2, fun sid hs => hmono2 sid (hmono1 sid hs), ?_, ?_⟩
    · refine List.Nodup.append hnd1 hnd2 ?_
      intro a ha1 ha2
      have hpres := (hcr1 a ha1).2
      have habs := (hcr2 a ha2).1
      rw [habs] at hpres
      simp at hpres
    · intro sid hmem
      rw [List.mem_append] at hmem
      rcases hmem with hm1 | hm2
      · exact ⟨(hcr1 sid hm1).1, hmono2 sid (hcr1 sid hm1).2⟩
      · refine ⟨?_, (hcr2 sid hm2).2⟩
        by_contra hne
        have hs0 : (alGet c.token_series_by_id sid).isSome :=
          Option.ne_none_iff_isSome.mp hne
        have hs1 := hmono1 sid hs0
        rw [(hcr2 sid hm2).1] at hs1
        simp at hs1

/-- The fresh contract has a well-formed (empty) registry. -/
theorem RegistryWf_new (owner treasury : AccountId) (ms : Nat)
    (wl : AccountId) (cf : Nat) :
    RegistryWf (Contract.new owner treasury ms wl cf) := by
  constructor
  · simp [Contract.new]
  · intro sid ts h
    simp [Contract.new, alGet] at h

def raffle_draws (pool : List Nat) (seeds : List Nat) : List Nat × List Nat :=
  match seeds with
  | [] => ([], pool)
  | s :: rest =>
    match raffle_draw pool s with
    | .error _ => ([], pool)
    | .ok (x, pool2) =>
      let r := raffle_draws pool2 rest
      (x :: r.1, r.2)

theorem raffle_draw_ok (pool : List Nat) (seed : Nat) (h : pool ≠ []) :
    raffle_draw pool seed =
      .ok (pool.getD (seed % pool.length) 0,
           pool.eraseIdx (seed % pool.length)) := by
  unfold raffle_draw
  rw [if_neg (fun hh => h (List.length_eq_zero.mp hh))]

theorem pool_perm_cons (pool : List Nat) (i : Nat) (h : i < pool.length) :
    pool.Perm (pool.getD i 0 :: pool.eraseIdx i) := by
  rw [List.getD_eq_getElem pool 0 h]
  exact (List.perm_cons_erase (List.getElem_mem h)).trans
    (List.Perm.cons _ (List.erase_getElem h))

theorem raffle_draws_perm (pool : List Nat) (seeds : List Nat)
    (h : seeds.length = pool.length) :
    (raffle_draws pool seeds).1.Perm pool ∧ (raffle_draws pool seeds).2 = [] := by
  induction seeds generalizing pool with
  | nil =>
    have : pool = [] := List.length_eq_zero.mp h.symm
    subst this
    simp [raffle_draws]
  | cons s rest ih =>
    have hne : pool ≠ [] := by
      intro hc
      subst hc
      simp at h
    have hlen : 0 < pool.length := List.length_pos.mpr hne
    have hi : s % pool.length < pool.length := Nat.mod_lt s hlen
    have hlen2 : rest.length = (pool.eraseIdx (s % pool.length)).length := by
      have h2 := List.length_eraseIdx_add_one hi
      have h3 : rest.length + 1 = pool.length := by simpa using h
      omega
    have hrec := ih (pool.eraseIdx (s % pool.length)) hlen2
    simp only [raffle_draws, raffle_draw_ok pool s hne]
    refine ⟨?_, hrec.2⟩
    exact ((hrec.1.cons (pool.getD (s % pool.length) 0)).trans
      (pool_perm_cons pool (s % pool.length) hi).symm)

/-- Modelled from the spec: the Raffle implementation (raffle.rs) is not
under src/.  C8: a pool initialized with N indices supports exactly N
successful draws for any seed sequence; the N results are pairwise distinct
and cover [0, N); the pool then is empty, so the next draw fails; and every
successful draw shrinks the pool by exactly one. -/
theorem C8_raffle_without_replacement (N : Nat) (seeds : List Nat)
    (h : seeds.length = N) :
    (raffle_draws (raffle_new N) seeds).1.length = N ∧
    (raffle_draws (raffle_new N) seeds).1.Perm (List.range N) ∧
    (raffle_draws (raffle_new N) seeds).1.Nodup ∧
    (∀ x ∈ (raffle_draws (raffle_new N) seeds).1, x < N) ∧
    (raffle_draws (raffle_new N) seeds).2 = [] ∧
    (∀ s2, ∃ e, raffle_draw (raffle_draws (raffle_new N) seeds).2 s2 = .error e) ∧
    (∀ (pool : List Nat) (s x : Nat) (p2 : List Nat),
      raffle_draw pool s = .ok (x, p2) → p2.length + 1 = pool.length) := by
  have hN : seeds.length = (raffle_new N).length := by
    simpa [raffle_new] using h
  obtain ⟨hperm, hempty⟩ := raffle_draws_perm (raffle_new N) seeds hN
  have hperm2 : (raffle_draws (raffle_new N) seeds).1.Perm (List.range N) := hperm
  refine ⟨?_, hperm2, ?_, ?_, hempty, ?_, ?_⟩
  · simpa [raffle_new] using hperm2.length_eq
  · exact hperm2.nodup_iff.mpr (List.nodup_range N)
  · intro x hx
    have := hperm2.mem_iff.mp hx
    simpa using this
  · intro s2
    rw [hempty]
    exact ⟨"no raffle left", rfl⟩
  · intro pool s x p2 hdraw
    rcases hp : pool with _ | ⟨a, tl⟩
    · subst hp
      simp [raffle_draw] at hdraw
    · subst hp
      rw [raffle_draw_ok _ s (by simp)] at hdraw
      simp only [Except.ok.injEq, Prod.mk.injEq] at hdraw
      rw [← hdraw.2]
      exact List.length_eraseIdx_add_one
        (Nat.mod_lt s (by simp))

/-- Witness for C8: pool of size 3, seeds 5, 1, 0 — three draws covering
all of 0, 1, 2, then exhaustion. -/
theorem C8_raffle_without_replacement_witness :
    (raffle_draws (raffle_new 3) [5, 1, 0]).1.length = 3 ∧
    (raffle_draws (raffle_new 3) [5, 1, 0]).1.Perm (List.range 3) ∧
    (raffle_draws (raffle_new 3) [5, 1, 0]).1.Nodup ∧
    (∀ x ∈ (raffle_draws (raffle_new 3) [5, 1, 0]).1, x < 3) ∧
    (raffle_draws (raffle_new 3) [5, 1, 0]).2 = [] ∧
    (∀ s2, ∃ e, raffle_draw (raffle_draws (raffle_new 3) [5, 1, 0]).2 s2 =
      .error e) ∧
    (∀ (pool : List Nat) (s x : Nat) (p2 : List Nat),
      raffle_draw pool s = .ok (x, p2) → p2.length + 1 = pool.length) :=
  C8_raffle_without_replacement 3 [5, 1, 0] (by decide)

/-- The concrete contract and metadata of the C4 witness scenario. -/
def C4w_c0 : Contract := Contract.new "o" "t" 0 "w" 500

def C4w_md : TokenMetadata := { title := some "T", copies := some 5 }

/-- Witness for C4: fee 500 bps, change to 100 bps scheduled at T = 10s,
series created at 5s (snapshot 500), bought at 12s (still settles at 500
while the live fee is already 100), re-priced at 13s (snapshot becomes 100). -/
theorem C4_fee_snapshot_locks_series_witness :
    ∃ c1 c2 js, set_transaction_fee C4w_c0 C4w_c0.owner_id 1 0 100 (some 10) =
        .ok c1 ∧
      nft_create_series c1 c1.owner_id 5000000000 none C4w_md (some 10000) none =
        .ok (c2, js) ∧
      alGet c2.market_data_transaction_fee js.token_series_id =
        some C4w_c0.transaction_fee.current_fee ∧
      (calculate_current_transaction_fee c2 12000000000).1 = 100 ∧
      ∃ res, nft_buy c2 "bob" 10000 12000000000 js.token_series_id "bob" =
          .ok res ∧
        res.creator_transfer.2 =
          10000 - 10000 * C4w_c0.transaction_fee.current_fee / 10000 ∧
        (10000 * C4w_c0.transaction_fee.current_fee / 10000 ≠ 0 →
          res.treasury_transfer = some (C4w_c0.treasury_id,
            10000 * C4w_c0.transaction_fee.current_fee / 10000)) ∧
        ∃ c4, nft_set_series_price res.state C4w_c0.owner_id 1 13000000000
            js.token_series_id (some 20000) = .ok (c4, some 20000) ∧
          alGet c4.market_data_transaction_fee js.token_series_id = some 100 :=
  C4_fee_snapshot_locks_series C4w_c0 0 5000000000 12000000000 13000000000
    100 10 C4w_md 10000 10000 "bob" "bob" (some 20000)
    (by decide) (by decide) (by decide) (by decide) (by decide) (by decide)
    (by decide) (by decide) (by decide) (by rfl) (by decide)

/-! ## Claim C6 — series identifier uniqueness -/

/-- C6: Two successful series-creation calls never produce the same series
identifier — over any sequence of operations from a fresh contract, mixing
auto-assigned creation (nft_create_series) and explicit-identifier creation
(nft_create_series_custom), the identifiers returned by the successful
creation calls are pairwise distinct, and the keys of token_series_by_id
remain pairwise distinct. -/
theorem C6_series_id_uniqueness (owner treasury : AccountId) (ms : Nat)
    (wl : AccountId) (cf : Nat) (ops : List Op) :
    (runTrace (Contract.new owner treasury ms wl cf) ops).2.Nodup ∧
    (((runTrace (Contract.new owner treasury ms wl cf)
        ops).1.token_series_by_id).map Prod.fst).Nodup := by
  obtain ⟨hwf, _, hnd, _⟩ :=
    runTrace_inv ops (Contract.new owner treasury ms wl cf)
      (RegistryWf_new owner treasury ms wl cf)
  exact ⟨hnd, hwf.1⟩

/-! ## Claim C1 — copies cap -/

/-- C1 counterexample: a series created with a copies cap of 0 is reachable
(the creation path never validates the cap), and it has minted count 0 equal
to its cap while is_mintable is still true — the flag only flips inside a
successful mint, which never happens for cap 0.  So "after C successful
mints the series has is_mintable == false" fails at C = 0. -/
theorem C1_counterexample_zero_cap :
    ∃ ts, alGet (runTrace (Contract.new "o" "t" 0 "w" 500)
        [Op.createSeries "o" 0 none { title := some "T", copies := some 0 }
          none none]).1.token_series_by_id "1" = some ts ∧
      ts.metadata.copies = some 0 ∧
      ts.tokens.length = 0 ∧
      ts.is_mintable = true :=
  ⟨_, rfl, rfl, rfl, rfl⟩

/-- C1 (amended): in any reachable state, a series carrying a copies cap C
has at most C minted editions; for caps C ≥ 1, once the minted count reaches
C the series has is_mintable = false; and whenever the minted count has
reached the cap, a further mint attempt on the series fails — with the
supply-exhaustion error while the series is still mintable (only possible at
cap 0), and with the not-mintable error otherwise, since the mintable flag
is checked before the supply bound. -/
theorem C1_copies_cap_amended (owner treasury : AccountId) (ms : Nat)
    (wl : AccountId) (cf : Nat) (ops : List Op) (sid : TokenSeriesId)
    (ts : TokenSeries) (cap : Nat)
    (hts : alGet (runTrace (Contract.new owner treasury ms wl cf)
        ops).1.token_series_by_id sid = some ts)
    (hcap : ts.metadata.copies = some cap) :
    ts.tokens.length ≤ cap ∧
    (1 ≤ cap → ts.tokens.length = cap → ts.is_mintable = false) ∧
    (cap ≤ ts.tokens.length → ts.is_mintable = true → ∀ bt r,
      _nft_mint_series (runTrace (Contract.new owner treasury ms wl cf)
        ops).1 bt sid r = .error "Series supply maxed") ∧
    (cap ≤ ts.tokens.length → ts.is_mintable = false → ∀ bt r,
      _nft_mint_series (runTrace (Contract.new owner treasury ms wl cf)
        ops).1 bt sid r = .error "Paras: Token series is not mintable") := by
  obtain ⟨hwf, _, _, _⟩ :=
    runTrace_inv ops _ (RegistryWf_new owner treasury ms wl cf)
  have hswf := hwf.2 sid ts hts
  have hgd : ts.metadata.copies.getD U64_MAX = cap := by rw [hcap]; rfl
  refine ⟨(hswf.1 cap hcap).1,
    fun hc1 hful => (hswf.1 cap hcap).2 hful hc1,
    fun hfull hm bt r => ?_, fun hfull hm bt r => ?_⟩
  · exact mint_err_maxed _ bt sid r ts hts hm (by rw [hgd]; exact hfull)
  · exact mint_err_not_mintable _ bt sid r ts hts hm

def C1w_ops : List Op :=
  [Op.createSeries "o" 0 none { title := some "T", copies := some 1 } none none,
   Op.mintCreator "o" 0 "1" "r"]

def C1w_ts : TokenSeries :=
  (alGet (runTrace (Contract.new "o" "t" 0 "w" 500)
    C1w_ops).1.token_series_by_id "1").getD
    { metadata := {}, creator_id := "", tokens := [], price := none,
      is_mintable := true, royalty := [] }

/-- Witness for the amended C1: create a series with cap 1 and mint once; the
resulting series satisfies the cap bound, is no longer mintable, and rejects
further mints. -/
theorem C1_copies_cap_amended_witness :
    alGet (runTrace (Contract.new "o" "t" 0 "w" 500)
      C1w_ops).1.token_series_by_id "1" = some C1w_ts ∧
    C1w_ts.metadata.copies = some 1 ∧
    (C1w_ts.tokens.length ≤ 1 ∧
     (1 ≤ 1 → C1w_ts.tokens.length = 1 → C1w_ts.is_mintable = false) ∧
     (1 ≤ C1w_ts.tokens.length → C1w_ts.is_mintable = true → ∀ bt r,
       _nft_mint_series (runTrace (Contract.new "o" "t" 0 "w" 500)
         C1w_ops).1 bt "1" r = .error "Series supply maxed") ∧
     (1 ≤ C1w_ts.tokens.length → C1w_ts.is_mintable = false → ∀ bt r,
       _nft_mint_series (runTrace (Contract.new "o" "t" 0 "w" 500)
         C1w_ops).1 bt "1" r = .error "Paras: Token series is not mintable")) :=
  ⟨by rfl, by rfl,
   C1_copies_cap_amended "o" "t" 0 "w" 500 C1w_ops "1" C1w_ts 1 (by rfl) (by rfl)⟩

/-! ## Claim C9 — editions 1-based, strictly increasing, never reused -/

/-- C9: From any reachable state, a successful mint issues edition
count + 1: 1-based, strictly above every edition already minted in that
series, and not previously present in the series' minted set, which grows
exactly by the new token.  Burning the token afterwards removes ownership,
token metadata and approval state but leaves the series registry — hence the
minted set — untouched, so the edition number is never reissued. -/
theorem C9_editions_never_reused (owner treasury : AccountId) (ms : Nat)
    (wl : AccountId) (cf : Nat) (ops : List Op) (bt : Nat)
    (sid : TokenSeriesId) (r : AccountId) (c2 : Contract) (tid : TokenId)
    (hm : _nft_mint_series (runTrace (Contract.new owner treasury ms wl cf)
        ops).1 bt sid r = .ok (c2, tid)) :
    ∃ ts, alGet (runTrace (Contract.new owner treasury ms wl cf)
        ops).1.token_series_by_id sid = some ts ∧
      tid = { series := sid, edition := ts.tokens.length + 1 } ∧
      1 ≤ tid.edition ∧
      tid ∉ ts.tokens ∧
      (∀ t ∈ ts.tokens, t.edition < tid.edition) ∧
      alGet c2.token_series_by_id sid = some (mintedSeries sid ts) ∧
      (mintedSeries sid ts).tokens = ts.tokens ++ [tid] ∧
      (∀ p d c3, nft_burn c2 p d tid = .ok c3 →
        c3.token_series_by_id = c2.token_series_by_id ∧
        alGet c3.owner_by_id tid = none ∧
        alGet c3.token_metadata_by_id tid = none ∧
        alGet c3.approvals_by_id tid = none) := by
  obtain ⟨hwf, _, _, _⟩ :=
    runTrace_inv ops _ (RegistryWf_new owner treasury ms wl cf)
  obtain ⟨ts, hs, hmint, hcap, hstate, htid⟩ := mint_inv _ bt sid r c2 tid hm
  have hswf := hwf.2 sid ts hs
  obtain ⟨htok, hmd, _⟩ := mintedSeries_wf sid ts hswf hcap
  subst hstate
  subst htid
  refine ⟨ts, hs, rfl, ?_, ?_, ?_, ?_, ?_, ?_⟩
  · simp
  · intro hmem
    have := (hswf.2 _ hmem).2
    simp at this
  · intro t htmem
    show t.edition < ts.tokens.length + 1
    exact Nat.lt_succ_of_le (hswf.2 t htmem).2
  · rw [mintState_token_series_by_id, alGet_alInsert_self]
  · exact htok
  · intro p d c3 hb
    obtain ⟨h1, h2, h3, h4, _⟩ := nft_burn_inv _ p d _ c3 hb
    exact ⟨h1, h2, h3, h4⟩

def C9w_ops : List Op :=
  [Op.createSeries "o" 0 none { title := some "T", copies := some 2 } none none]

def C9w_res : Contract × TokenId :=
  (_nft_mint_series (runTrace (Contract.new "o" "t" 0 "w" 500)
      C9w_ops).1 0 "1" "r").toOption.getD
    (Contract.new "o" "t" 0 "w" 500, { series := "", edition := 0 })

/-- Witness for C9: create a series with cap 2 and mint from the reachable
state; the issued edition is 1, fresh, and burning it leaves the registry
untouched. -/
theorem C9_editions_never_reused_witness :
    _nft_mint_series (runTrace (Contract.new "o" "t" 0 "w" 500)
        C9w_ops).1 0 "1" "r" = .ok (C9w_res.1, C9w_res.2) ∧
    (∃ ts, alGet (runTrace (Contract.new "o" "t" 0 "w" 500)
        C9w_ops).1.token_series_by_id "1" = some ts ∧
      C9w_res.2 = { series := "1", edition := ts.tokens.length + 1 } ∧
      1 ≤ C9w_res.2.edition ∧
      C9w_res.2 ∉ ts.tokens ∧
      (∀ t ∈ ts.tokens, t.edition < C9w_res.2.edition) ∧
      alGet C9w_res.1.token_series_by_id "1" = some (mintedSeries "1" ts) ∧
      (mintedSeries "1" ts).tokens = ts.tokens ++ [C9w_res.2] ∧
      (∀ p d c3, nft_burn C9w_res.1 p d C9w_res.2 = .ok c3 →
        c3.token_series_by_id = C9w_res.1.token_series_by_id ∧
        alGet c3.owner_by_id C9w_res.2 = none ∧
        alGet c3.token_metadata_by_id C9w_res.2 = none ∧
        alGet c3.approvals_by_id C9w_res.2 = none)) :=
  ⟨by rfl,
   C9_editions_never_reused "o" "t" 0 "w" 500 C9w_ops 0 "1" "r"
     C9w_res.1 C9w_res.2 (by rfl)⟩

end ParasNft
